import Mathlib

/-!
Verification of the `reflectutils` json-field introspection core
(`util/reflectutils/jsonfield.go`): tag parsing into field policies,
type-level schema walking, instance-level value walking (read and write
mode), and name resolution.

Go structs are shallowly embedded as trees of `GoValue`/`GoField`;
mutation (`reflect.Value.Set`) is modelled by returning the updated
value alongside each walker's result.
-/

namespace Reflectutils

/-- Modelled from the spec: the exported-identifier predicate
(`gotypes.IsFieldExportable`, an external collaborator whose source is
not part of this tree).  A field name is exportable iff its first
character is upper-case. -/
def IsFieldExportable (name : String) : Bool :=
  match name.toList with
  | [] => false
  | c :: _ => c.isUpper

/-- Token grouping for camel-case splitting: a new token starts at an
upper-case character whose predecessor is lower-case, or whose
predecessor is upper-case while its successor is lower-case. -/
def camelTokensAux : List Char → List Char → List (List Char)
  | [], acc => if acc.isEmpty then [] else [acc.reverse]
  | c :: rest, acc =>
    if c.isUpper && !acc.isEmpty &&
        ((acc.headD 'A').isLower || (rest.headD 'A').isLower) then
      acc.reverse :: camelTokensAux rest [c]
    else
      camelTokensAux rest (c :: acc)

/-- Modelled from the spec: the identifier case converter
(`utils.CamelSplit`, an external collaborator whose source is not part
of this tree).  Splits a camel-case name into tokens, lower-cases them
and joins them with the separator, so that `UserID` becomes
`user_id`. -/
def CamelSplit (s : String) (sep : String) : String :=
  String.intercalate sep
    ((camelTokensAux s.toList []).map (fun t => String.mk (t.map Char.toLower)))

/-- Modelled from the spec: the capitalization helper
(`utils.Capitalize`, an external collaborator whose source is not part
of this tree).  Upper-cases the first character. -/
def Capitalize (s : String) : String :=
  match s.toList with
  | [] => s
  | c :: rest => String.mk (c.toUpper :: rest)

/-- Splitting on a single separator character, modelling Go's
`strings.Split(s, sep)` for the one-character separators used here:
splitting the empty string yields one empty token, and separators at
the ends yield empty tokens. -/
def splitOnCharAux (sep : Char) : List Char → List Char → List (List Char)
  | [], acc => [acc.reverse]
  | c :: rest, acc =>
    if c == sep then acc.reverse :: splitOnCharAux sep rest []
    else splitOnCharAux sep rest (c :: acc)

/-- Go's `strings.Split(s, ",")`. -/
def splitComma (s : String) : List String :=
  (splitOnCharAux ',' s.toList []).map String.mk

/-- Go's `strings.ToLower` (character-wise lower-casing). -/
def toLowerStr (s : String) : String :=
  String.mk (s.toList.map Char.toLower)

/-- Field policy produced by the tag parser (`SStructFieldInfo`). -/
structure SStructFieldInfo where
  Ignore : Bool := false
  OmitEmpty : Bool := false
  OmitFalse : Bool := false
  OmitZero : Bool := false
  Name : String := ""
  FieldName : String := ""
  ForceString : Bool := false
  Tags : List (String × String) := []
deriving DecidableEq, Repr

/-- One iteration of the flag-token switch in `ParseStructFieldJsonInfo`:
each recognised token sets exactly one boolean flag. -/
def applyFlagToken (info : SStructFieldInfo) (k : String) : SStructFieldInfo :=
  if toLowerStr k == "omitempty" then { info with OmitEmpty := true }
  else if toLowerStr k == "allowempty" then { info with OmitEmpty := false }
  else if toLowerStr k == "omitzero" then { info with OmitZero := true }
  else if toLowerStr k == "allowzero" then { info with OmitZero := false }
  else if toLowerStr k == "omitfalse" then { info with OmitFalse := true }
  else if toLowerStr k == "allowfalse" then { info with OmitFalse := false }
  else if toLowerStr k == "string" then { info with ForceString := true }
  else info

/-- First-token handling of the primary `json` tag key: `-` alone marks
the field ignored, `-` with further tokens names the field `-`, any
other token is the external name override. -/
def applyNameToken (info : SStructFieldInfo) (k0 : String) (hasMore : Bool) :
    SStructFieldInfo :=
  if k0 == "-" then
    if hasMore then { info with Name := k0 } else { info with Ignore := true }
  else { info with Name := k0 }

/-- `ParseStructFieldJsonInfo`: build the field policy for one struct
field from its name and its (already tokenized) tag map.  `OmitEmpty`
defaults to true; the `json` key's comma-separated value supplies the
name token and the flag tokens; a separate `name` key overrides the
external name. -/
def ParseStructFieldJsonInfo (fieldName : String)
    (tags : List (String × String)) : SStructFieldInfo :=
  let info : SStructFieldInfo :=
    { FieldName := fieldName, OmitEmpty := true, OmitZero := false,
      OmitFalse := false, Tags := tags }
  let info :=
    match tags.lookup "json" with
    | some val =>
      match splitComma val with
      | [] => info
      | k0 :: krest =>
        let info := applyNameToken info k0 (!krest.isEmpty)
        krest.foldl applyFlagToken info
    | none => info
  match tags.lookup "name" with
  | some v => { info with Name := v }
  | none => info

/-- `SStructFieldInfo.MarshalName`: lazily derive and memoize the
external name.  The receiver is mutated in Go; here the updated record
is returned as the second component. -/
def SStructFieldInfo.MarshalName (info : SStructFieldInfo) :
    String × SStructFieldInfo :=
  if info.Name.length > 0 then (info.Name, info)
  else
    let name := CamelSplit info.FieldName "_"
    (name, { info with Name := name })

/-! Shallow embedding of the Go values the walkers traverse.  A field
value is either an opaque leaf (any non-struct, non-pointer,
non-interface kind), a struct with an ordered field list, a pointer
(carrying the zero value of its element type, used by
`reflect.New(fv.Type().Elem())` when the walkers allocate), or an
interface with optional dynamic content.  A `GoField` carries the
declared name, the tokenized tag map, the `Anonymous` flag, whether the
declared field type is `gotypes.TimeType`, and the current value. -/

mutual
inductive GoValue where
  | leaf : Nat → GoValue
  | strukt : List GoField → GoValue
  | ptr : GoValue → Option GoValue → GoValue
  | iface : Option GoValue → GoValue
deriving Repr
inductive GoField where
  | mk : String → List (String × String) → Bool → Bool → GoValue → GoField
deriving Repr
end

def GoField.name : GoField → String
  | .mk n _ _ _ _ => n

def GoField.tags : GoField → List (String × String)
  | .mk _ t _ _ _ => t

def GoField.anonymous : GoField → Bool
  | .mk _ _ a _ _ => a

def GoField.isTime : GoField → Bool
  | .mk _ _ _ b _ => b

def GoField.value : GoField → GoValue
  | .mk _ _ _ _ v => v

/-! The type-level schema walker `fetchStructFieldInfos`.  It inspects
the instance: a nil anonymous pointer is allocated (a mutation of the
caller's instance, returned here as the second component), then the
pointer is dereferenced; an anonymous interface is dereferenced; a
struct found there (other than `gotypes.TimeType`) is recursed into and
its infos spliced; anything else contributes the field's own parsed
info.  `fetchStructFieldInfosElem` handles the value after the pointer
stage (the `fv` after `fv = fv.Elem()` on a pointer, or the original
`fv` otherwise); dereferencing a nil interface yields an invalid
`reflect.Value`, whose kind is not `Struct`, so the field's own info is
appended. -/

mutual
def fetchStructFieldInfos : List GoField → List SStructFieldInfo × List GoField
  | [] => ([], [])
  | f :: fs =>
    let r1 := fetchStructFieldInfosField f
    let r2 := fetchStructFieldInfos fs
    (r1.1 ++ r2.1, r1.2 :: r2.2)

def fetchStructFieldInfosField : GoField → List SStructFieldInfo × GoField
  | .mk name tags anon isTime v =>
    if IsFieldExportable name = false then ([], .mk name tags anon isTime v)
    else if anon = true then
      match v with
      | .ptr z none =>
        let r := fetchStructFieldInfosElem name tags isTime z
        (r.1, .mk name tags anon isTime (.ptr z (some r.2)))
      | .ptr z (some w) =>
        let r := fetchStructFieldInfosElem name tags isTime w
        (r.1, .mk name tags anon isTime (.ptr z (some r.2)))
      | v0 =>
        let r := fetchStructFieldInfosElem name tags isTime v0
        (r.1, .mk name tags anon isTime r.2)
    else ([ParseStructFieldJsonInfo name tags], .mk name tags anon isTime v)

def fetchStructFieldInfosElem (name : String) (tags : List (String × String))
    (isTime : Bool) : GoValue → List SStructFieldInfo × GoValue
  | .iface (some (.strukt fs)) =>
    if isTime = true then
      ([ParseStructFieldJsonInfo name tags], .iface (some (.strukt fs)))
    else
      let r := fetchStructFieldInfos fs
      (r.1, .iface (some (.strukt r.2)))
  | .strukt fs =>
    if isTime = true then ([ParseStructFieldJsonInfo name tags], .strukt fs)
    else
      let r := fetchStructFieldInfos fs
      (r.1, .strukt r.2)
  | v => ([ParseStructFieldJsonInfo name tags], v)
end

/-- Entry of the flat value list (`SStructFieldValueV2`): a field value
paired with its schema index. -/
structure SStructFieldValueV2 where
  Value : GoValue
  Index : Nat
deriving Repr

/-! The instance-level value walker `fetchStructFieldValueV2s`.  The
schema-index counter is threaded through; an absent composed
pointer/interface field that is not materialized advances the counter
by one and contributes nothing; in write mode a nil anonymous pointer
is allocated (set to the zero value of its element type) and walked as
if present.  The updated instance is returned as the last component. -/

mutual
def fetchStructFieldValueV2s :
    List GoField → Bool → Nat → List SStructFieldValueV2 × Nat × List GoField
  | [], _, index => ([], index, [])
  | f :: fs, allocatePtr, index =>
    let r1 := fetchStructFieldValueV2sField f allocatePtr index
    let r2 := fetchStructFieldValueV2s fs allocatePtr r1.2.1
    (r1.1 ++ r2.1, r2.2.1, r1.2.2 :: r2.2.2)

def fetchStructFieldValueV2sField :
    GoField → Bool → Nat → List SStructFieldValueV2 × Nat × GoField
  | .mk name tags anon isTime v, allocatePtr, index =>
    if IsFieldExportable name = false then
      ([], index, .mk name tags anon isTime v)
    else if anon = true then
      match v with
      | .ptr z none =>
        if allocatePtr = true then
          let r := fetchStructFieldValueV2sElem isTime z allocatePtr index
          (r.1, r.2.1, .mk name tags anon isTime (.ptr z (some r.2.2)))
        else ([], index + 1, .mk name tags anon isTime (.ptr z none))
      | .iface none => ([], index + 1, .mk name tags anon isTime (.iface none))
      | .ptr z (some w) =>
        let r := fetchStructFieldValueV2sElem isTime w allocatePtr index
        (r.1, r.2.1, .mk name tags anon isTime (.ptr z (some r.2.2)))
      | .iface (some w) =>
        let r := fetchStructFieldValueV2sElem isTime w allocatePtr index
        (r.1, r.2.1, .mk name tags anon isTime (.iface (some r.2.2)))
      | v0 =>
        let r := fetchStructFieldValueV2sElem isTime v0 allocatePtr index
        (r.1, r.2.1, .mk name tags anon isTime r.2.2)
    else ([⟨v, index⟩], index + 1, .mk name tags anon isTime v)

def fetchStructFieldValueV2sElem (isTime : Bool) :
    GoValue → Bool → Nat → List SStructFieldValueV2 × Nat × GoValue
  | .strukt fs, allocatePtr, index =>
    if isTime = true then ([⟨.strukt fs, index⟩], index + 1, .strukt fs)
    else
      let r := fetchStructFieldValueV2s fs allocatePtr index
      (r.1, r.2.1, .strukt r.2.2)
  | v, _, index => ([⟨v, index⟩], index + 1, v)
end

/-- Entry of the v1 flat list (`SStructFieldValue`): parsed info paired
with the field value. -/
structure SStructFieldValue where
  Info : SStructFieldInfo
  Value : GoValue
deriving Repr

abbrev SStructFieldValueSet := List SStructFieldValue

/-! The v1 walker `fetchStructFieldValueSet`: like the v2 value walker
but with no schema-index counter, and each emitted entry carries the
parsed field info; an absent composed field not materialized is skipped
entirely. -/

mutual
def fetchStructFieldValueSet :
    List GoField → Bool → SStructFieldValueSet × List GoField
  | [], _ => ([], [])
  | f :: fs, allocatePtr =>
    let r1 := fetchStructFieldValueSetField f allocatePtr
    let r2 := fetchStructFieldValueSet fs allocatePtr
    (r1.1 ++ r2.1, r1.2 :: r2.2)

def fetchStructFieldValueSetField :
    GoField → Bool → SStructFieldValueSet × GoField
  | .mk name tags anon isTime v, allocatePtr =>
    if IsFieldExportable name = false then ([], .mk name tags anon isTime v)
    else if anon = true then
      match v with
      | .ptr z none =>
        if allocatePtr = true then
          let r := fetchStructFieldValueSetElem name tags isTime z allocatePtr
          (r.1, .mk name tags anon isTime (.ptr z (some r.2)))
        else ([], .mk name tags anon isTime (.ptr z none))
      | .iface none => ([], .mk name tags anon isTime (.iface none))
      | .ptr z (some w) =>
        let r := fetchStructFieldValueSetElem name tags isTime w allocatePtr
        (r.1, .mk name tags anon isTime (.ptr z (some r.2)))
      | .iface (some w) =>
        let r := fetchStructFieldValueSetElem name tags isTime w allocatePtr
        (r.1, .mk name tags anon isTime (.iface (some r.2)))
      | v0 =>
        let r := fetchStructFieldValueSetElem name tags isTime v0 allocatePtr
        (r.1, .mk name tags anon isTime r.2)
    else
      ([⟨ParseStructFieldJsonInfo name tags, v⟩], .mk name tags anon isTime v)

def fetchStructFieldValueSetElem (name : String)
    (tags : List (String × String)) (isTime : Bool) :
    GoValue → Bool → SStructFieldValueSet × GoValue
  | .strukt fs, allocatePtr =>
    if isTime = true then
      ([⟨ParseStructFieldJsonInfo name tags, .strukt fs⟩], .strukt fs)
    else
      let r := fetchStructFieldValueSet fs allocatePtr
      (r.1, .strukt r.2)
  | v, _ => ([⟨ParseStructFieldJsonInfo name tags, v⟩], v)
end

/-- The four-way fallback chain both index lookups apply to one field
policy, in order: exact external-name match, snake-case-normalized
comparison of field name and key, exact field-name match, and match of
the capitalized key against the field name. -/
def fieldMatches (info : SStructFieldInfo) (name : String) : Bool :=
  (info.MarshalName).1 == name
    || CamelSplit info.FieldName "_" == CamelSplit name "_"
    || info.FieldName == name
    || info.FieldName == Capitalize name

/-- Loop body of `SStructFieldValueSet.GetStructFieldIndex`, mirroring
the four sequential if-return tests of the source. -/
def getIndexLoop : SStructFieldValueSet → String → Nat → Int
  | [], _, _ => -1
  | e :: rest, name, i =>
    if (e.Info.MarshalName).1 == name then (i : Int)
    else if CamelSplit e.Info.FieldName "_" == CamelSplit name "_" then (i : Int)
    else if e.Info.FieldName == name then (i : Int)
    else if e.Info.FieldName == Capitalize name then (i : Int)
    else getIndexLoop rest name (i + 1)

/-- `SStructFieldValueSet.GetStructFieldIndex`: index of the first
entry matched by the fallback chain, or -1. -/
def SStructFieldValueSet.GetStructFieldIndex (set : SStructFieldValueSet)
    (name : String) : Int :=
  getIndexLoop set name 0

/-- `SStructFieldValueSet.GetValue`: the matched entry's value with a
found flag. -/
def SStructFieldValueSet.GetValue (set : SStructFieldValueSet)
    (name : String) : Option GoValue × Bool :=
  let idx := SStructFieldValueSet.GetStructFieldIndex set name
  if idx < 0 then (none, false)
  else ((set.get? idx.toNat).map (fun e => e.Value), true)

/-- The v2 pair of a type's flat schema and one instance's flat value
list (`SStructFieldValueSetV2`). -/
structure SStructFieldValueSetV2 where
  Infos : List SStructFieldInfo
  Values : List SStructFieldValueV2

/-- Loop body of the first phase of
`SStructFieldValueSetV2.getStructFieldIndex`: position in `Infos` of
the first policy matched by the fallback chain, or -1. -/
def firstMatchLoop : List SStructFieldInfo → String → Nat → Int
  | [], _, _ => -1
  | info :: rest, name, i =>
    if (info.MarshalName).1 == name then (i : Int)
    else if CamelSplit info.FieldName "_" == CamelSplit name "_" then (i : Int)
    else if info.FieldName == name then (i : Int)
    else if info.FieldName == Capitalize name then (i : Int)
    else firstMatchLoop rest name (i + 1)

/-- The reverse traversal of the second phase of
`SStructFieldValueSetV2.getStructFieldIndex`: scan positions `i, i-1,
..., 0` of `Values` for an entry whose `Index` equals the target.  A
position outside `Values` never matches (the source only reaches this
loop with in-bounds positions). -/
def scanDown (values : List SStructFieldValueV2) (target : Nat) :
    Nat → Option Nat
  | 0 =>
    match values.get? 0 with
    | some e => if e.Index == target then some 0 else none
    | none => none
  | i + 1 =>
    match values.get? (i + 1) with
    | some e =>
      if e.Index == target then some (i + 1) else scanDown values target i
    | none => scanDown values target i

/-- `SStructFieldValueSetV2.getStructFieldIndex`: resolve the name in
`Infos` by the fallback chain; on failure return -1; otherwise clamp
the schema index to the last position of `Values`, scan downward from
it for an entry whose `Index` equals the clamped schema index, and on a
miss (`no arrival` in the source) return the clamped schema index
itself.  When `Values` is empty the clamped index is -1 and the scan
loop body never runs, so -1 is returned. -/
def SStructFieldValueSetV2.getStructFieldIndex (set : SStructFieldValueSetV2)
    (name : String) : Int :=
  let index : Int := firstMatchLoop set.Infos name 0
  if index < 0 then index
  else
    let index : Int :=
      if (set.Values.length : Int) ≤ index then (set.Values.length : Int) - 1
      else index
    if index < 0 then index
    else
      match scanDown set.Values index.toNat index.toNat with
      | some i => (i : Int)
      | none => index

/-- `SStructFieldValueSetV2.GetValue`. -/
def SStructFieldValueSetV2.GetValue (set : SStructFieldValueSetV2)
    (name : String) : Option GoValue × Bool :=
  let idx := set.getStructFieldIndex name
  if idx < 0 then (none, false)
  else ((set.Values.get? idx.toNat).map (fun e => e.Value), true)

/-- `cachefetchStructFieldInfos`: the process-wide cache keyed by the
instance's type, modelled by its current entry for that type.  A hit
returns the cached schema and leaves the instance untouched; a miss
computes the schema from the instance (possibly mutating it). -/
def cachefetchStructFieldInfos (cache : Option (List SStructFieldInfo))
    (fields : List GoField) : List SStructFieldInfo × List GoField :=
  match cache with
  | some infos => (infos, fields)
  | none => fetchStructFieldInfos fields

/-- `FetchStructFieldValueSet` (read mode). -/
def FetchStructFieldValueSet (fields : List GoField) :
    SStructFieldValueSet × List GoField :=
  fetchStructFieldValueSet fields false

/-- `FetchStructFieldValueSetForWrite` (write mode). -/
def FetchStructFieldValueSetForWrite (fields : List GoField) :
    SStructFieldValueSet × List GoField :=
  fetchStructFieldValueSet fields true

/-- `FetchStructFieldValueSetV2` (read mode): cached schema plus the
instance's value walk. -/
def FetchStructFieldValueSetV2 (cache : Option (List SStructFieldInfo))
    (fields : List GoField) : SStructFieldValueSetV2 × List GoField :=
  let r1 := cachefetchStructFieldInfos cache fields
  let r2 := fetchStructFieldValueV2s r1.2 false 0
  ({ Infos := r1.1, Values := r2.1 }, r2.2.2)

/-- `FetchStructFieldValueSetForWriteV2` (write mode). -/
def FetchStructFieldValueSetForWriteV2 (cache : Option (List SStructFieldInfo))
    (fields : List GoField) : SStructFieldValueSetV2 × List GoField :=
  let r1 := cachefetchStructFieldInfos cache fields
  let r2 := fetchStructFieldValueV2s r1.2 true 0
  ({ Infos := r1.1, Values := r2.1 }, r2.2.2)

/-! Auxiliary predicates and the static-type model used to state the
invariants. -/

/-! No interface value occurs anywhere inside (used to delimit the
cases where schema and value walks stay aligned). -/
mutual
def ifaceFreeV : GoValue → Bool
  | .leaf _ => true
  | .strukt fs => ifaceFreeFields fs
  | .ptr z t =>
    ifaceFreeV z && (match t with | none => true | some w => ifaceFreeV w)
  | .iface _ => false
def ifaceFreeField : GoField → Bool
  | .mk _ _ _ _ v => ifaceFreeV v
def ifaceFreeFields : List GoField → Bool
  | [] => true
  | f :: fs => ifaceFreeField f && ifaceFreeFields fs
end

/-! Static Go types, to the extent the walkers can observe them:
opaque leaf kinds, struct types with ordered field lists, pointer
types, and interface types. -/
mutual
inductive GoType where
  | leafT : GoType
  | struktT : List GoFieldT → GoType
  | ptrT : GoType → GoType
  | ifaceT : GoType
deriving Repr
inductive GoFieldT where
  | mk : String → List (String × String) → Bool → Bool → GoType → GoFieldT
deriving Repr
end

/-! Instance-of-type relation: a leaf inhabits a leaf kind, a struct
inhabits a struct type field-by-field (with identical declarations), a
pointer inhabits a pointer type when its element zero value and its
target (if any) inhabit the element type, and an interface value of any
dynamic content inhabits an interface type. -/
mutual
def hasType : GoValue → GoType → Bool
  | .leaf _, .leafT => true
  | .strukt fs, .struktT fts => hasTypeFields fs fts
  | .ptr z tgt, .ptrT t =>
    hasType z t && (match tgt with | none => true | some w => hasType w t)
  | .iface _, .ifaceT => true
  | _, _ => false
def hasTypeField : GoField → GoFieldT → Bool
  | .mk n tg a b v, .mk n' tg' a' b' t =>
    decide (n = n') && decide (tg = tg') && decide (a = a')
      && decide (b = b') && hasType v t
def hasTypeFields : List GoField → List GoFieldT → Bool
  | [], [] => true
  | f :: fs, ft :: fts => hasTypeField f ft && hasTypeFields fs fts
  | _, _ => false
end

/-! No interface type occurs anywhere inside the type. -/
mutual
def noIfaceT : GoType → Bool
  | .leafT => true
  | .struktT fts => noIfaceTFields fts
  | .ptrT t => noIfaceT t
  | .ifaceT => false
def noIfaceTField : GoFieldT → Bool
  | .mk _ _ _ _ t => noIfaceT t
def noIfaceTFields : List GoFieldT → Bool
  | [] => true
  | ft :: fts => noIfaceTField ft && noIfaceTFields fts
end

/-- Stated from the spec's words, for comparison with the lookup loops:
the position of the first field policy that passes the ordered
four-test fallback chain, or -1 when none does. -/
def chainResolve (infos : List SStructFieldInfo) (name : String) : Int :=
  match infos with
  | [] => -1
  | info :: rest =>
    if fieldMatches info name then 0
    else if chainResolve rest name < 0 then -1 else chainResolve rest name + 1

/-- Tokens that drive the `OmitEmpty` flag (its exclusive on/off pair). -/
def isEmptyFlagToken (k : String) : Bool :=
  toLowerStr k == "omitempty" || toLowerStr k == "allowempty"

/-- Well-formedness of one value walk: the counter never decreases,
every emitted schema index lies in the walked window, and the emitted
indices are strictly increasing. -/
def V2Mono (vs : List SStructFieldValueV2) (i j : Nat) : Prop :=
  i ≤ j ∧ (∀ e ∈ vs, i ≤ e.Index ∧ e.Index < j)
    ∧ vs.Pairwise (fun x y => x.Index < y.Index)

/-! Concrete instances used by witnesses and counterexamples.  They
model Go declarations of the shape

  type SInner struct { A, B int }
  type Outer struct { *SInner; X int }   // SInner embedded

plus variants with an embedded interface field. -/

/-- Zero value of the embedded struct type `SInner`. -/
def innerZeroV : GoValue :=
  .strukt [GoField.mk "A" [] false false (.leaf 0),
           GoField.mk "B" [] false false (.leaf 0)]

/-- A populated value of `SInner`. -/
def innerLiveV : GoValue :=
  .strukt [GoField.mk "A" [] false false (.leaf 9),
           GoField.mk "B" [] false false (.leaf 8)]

/-- An `Outer` instance whose embedded `*SInner` is nil. -/
def outerNilFields : List GoField :=
  [GoField.mk "SInner" [] true false (.ptr innerZeroV none),
   GoField.mk "X" [] false false (.leaf 7)]

/-- An `Outer` instance whose embedded `*SInner` is populated. -/
def outerLiveFields : List GoField :=
  [GoField.mk "SInner" [] true false (.ptr innerZeroV (some innerLiveV)),
   GoField.mk "X" [] false false (.leaf 7)]

/-- The static type of `Outer`'s field list. -/
def outerFieldTypes : List GoFieldT :=
  [GoFieldT.mk "SInner" [] true false
     (.ptrT (.struktT [GoFieldT.mk "A" [] false false .leafT,
                       GoFieldT.mk "B" [] false false .leafT])),
   GoFieldT.mk "X" [] false false .leafT]

/-- The v2 set the cached-schema path builds for a nil-pointer `Outer`
instance: the schema was seeded earlier by an identical instance, so
the value walk sees the nil pointer and skips it. -/
def outerNilSetV2 : SStructFieldValueSetV2 :=
  (FetchStructFieldValueSetV2 (some ((fetchStructFieldInfos outerNilFields).1))
    outerNilFields).1

/-- Field list with an absent (nil) anonymous interface field. -/
def ifaceNilFields : List GoField :=
  [GoField.mk "EIface" [] true false (.iface none),
   GoField.mk "X" [] false false (.leaf 7)]

/-- Same type as `ifaceNilFields`, interface populated with a struct. -/
def ifaceLiveFields : List GoField :=
  [GoField.mk "EIface" [] true false
     (.iface (some (.strukt [GoField.mk "A" [] false false (.leaf 0)]))),
   GoField.mk "X" [] false false (.leaf 7)]

/-- The static type of `ifaceNilFields`/`ifaceLiveFields`. -/
def ifaceFieldTypes : List GoFieldT :=
  [GoFieldT.mk "EIface" [] true false .ifaceT,
   GoFieldT.mk "X" [] false false .leafT]

/-- A field tagged `json:"-"` next to an untagged field. -/
def dashFields : List GoField :=
  [GoField.mk "F" [("json", "-")] false false (.leaf 1),
   GoField.mk "G" [] false false (.leaf 2)]

/-! Type-level rendering of the schema walk, mirroring
`fetchStructFieldInfos` on the static type alone: used to show the
walk is instance-independent when no interface types occur. -/
mutual
def schemaOfTypeFields : List GoFieldT → List SStructFieldInfo
  | [] => []
  | ft :: fts => schemaOfTypeField ft ++ schemaOfTypeFields fts
def schemaOfTypeField : GoFieldT → List SStructFieldInfo
  | .mk name tags anon isTime t =>
    if IsFieldExportable name = false then []
    else if anon = true then
      match t with
      | .ptrT t2 => schemaOfTypeElem name tags isTime t2
      | t2 => schemaOfTypeElem name tags isTime t2
    else [ParseStructFieldJsonInfo name tags]
def schemaOfTypeElem (name : String) (tags : List (String × String))
    (isTime : Bool) : GoType → List SStructFieldInfo
  | .struktT fts =>
    if isTime = true then [ParseStructFieldJsonInfo name tags]
    else schemaOfTypeFields fts
  | _ => [ParseStructFieldJsonInfo name tags]
end

/-! Helper lemmas. -/

theorem v2Mono_nil (i j : Nat) (h : i ≤ j) : V2Mono [] i j :=
  ⟨h, by simp, by simp⟩

theorem v2Mono_single (v : GoValue) (i : Nat) : V2Mono [⟨v, i⟩] i (i + 1) :=
  ⟨by omega, by intro e he; simp at he; simp [he], by simp⟩

theorem v2Mono_append {vs1 vs2 : List SStructFieldValueV2} {i j k : Nat}
    (h1 : V2Mono vs1 i j) (h2 : V2Mono vs2 j k) :
    V2Mono (vs1 ++ vs2) i k := by
  obtain ⟨hij, hb1, hp1⟩ := h1
  obtain ⟨hjk, hb2, hp2⟩ := h2
  refine ⟨le_trans hij hjk, ?_, ?_⟩
  · intro e he
    rcases List.mem_append.mp he with h | h
    · have := hb1 e h; omega
    · have := hb2 e h; omega
  · rw [List.pairwise_append]
    refine ⟨hp1, hp2, ?_⟩
    intro x hx y hy
    have hxj := (hb1 x hx).2
    have hyj := (hb2 y hy).1
    omega

theorem applyFlagToken_Ignore (info : SStructFieldInfo) (k : String) :
    (applyFlagToken info k).Ignore = info.Ignore := by
  unfold applyFlagToken
  split <;> try rfl
  split <;> try rfl
  split <;> try rfl
  split <;> try rfl
  split <;> try rfl
  split <;> try rfl
  split <;> rfl

theorem applyFlagToken_Name (info : SStructFieldInfo) (k : String) :
    (applyFlagToken info k).Name = info.Name := by
  unfold applyFlagToken
  split <;> try rfl
  split <;> try rfl
  split <;> try rfl
  split <;> try rfl
  split <;> try rfl
  split <;> try rfl
  split <;> rfl

theorem applyFlagToken_OmitEmpty_of_not_flag (info : SStructFieldInfo)
    (k : String) (h : isEmptyFlagToken k = false) :
    (applyFlagToken info k).OmitEmpty = info.OmitEmpty := by
  unfold isEmptyFlagToken at h
  simp only [Bool.or_eq_false_iff] at h
  unfold applyFlagToken
  rw [if_neg, if_neg]
  · split <;> try rfl
    split <;> try rfl
    split <;> try rfl
    split <;> try rfl
    split <;> rfl
  · simp [h.2]
  · simp [h.1]

theorem applyFlagToken_OmitEmpty_of_flag (info : SStructFieldInfo)
    (k : String) (h : isEmptyFlagToken k = true) :
    (applyFlagToken info k).OmitEmpty = (toLowerStr k == "omitempty") := by
  unfold isEmptyFlagToken at h
  unfold applyFlagToken
  cases h1 : (toLowerStr k == "omitempty") with
  | true => simp [h1]
  | false =>
    simp only [h1, Bool.false_or] at h
    simp [h1, h]

theorem foldFlags_Ignore (toks : List String) (info : SStructFieldInfo) :
    (toks.foldl applyFlagToken info).Ignore = info.Ignore := by
  induction toks generalizing info with
  | nil => rfl
  | cons t ts ih => rw [List.foldl_cons, ih, applyFlagToken_Ignore]

theorem foldFlags_Name (toks : List String) (info : SStructFieldInfo) :
    (toks.foldl applyFlagToken info).Name = info.Name := by
  induction toks generalizing info with
  | nil => rfl
  | cons t ts ih => rw [List.foldl_cons, ih, applyFlagToken_Name]

theorem foldFlags_OmitEmpty (toks : List String) (info : SStructFieldInfo) :
    (toks.foldl applyFlagToken info).OmitEmpty =
      (match (toks.filter isEmptyFlagToken).getLast? with
       | none => info.OmitEmpty
       | some t => (toLowerStr t == "omitempty")) := by
  induction toks using List.reverseRecOn generalizing info with
  | nil => rfl
  | append_singleton ts t ih =>
    rw [List.foldl_append, List.foldl_cons, List.foldl_nil, List.filter_append]
    cases hrel : isEmptyFlagToken t with
    | false =>
      have h2 : List.filter isEmptyFlagToken [t] = [] := by simp [hrel]
      rw [h2, List.append_nil, applyFlagToken_OmitEmpty_of_not_flag _ _ hrel, ih]
    | true =>
      have h2 : List.filter isEmptyFlagToken [t] = [t] := by simp [hrel]
      rw [h2, List.getLast?_concat]
      exact applyFlagToken_OmitEmpty_of_flag _ _ hrel

theorem applyNameToken_OmitEmpty (info : SStructFieldInfo) (k0 : String)
    (b : Bool) : (applyNameToken info k0 b).OmitEmpty = info.OmitEmpty := by
  unfold applyNameToken
  split <;> try rfl
  split <;> rfl

theorem parse_json_some (name : String) (tags : List (String × String))
    (val : String) (h : tags.lookup "json" = some val) (k0 : String)
    (krest : List String) (hsplit : splitComma val = k0 :: krest) :
    ParseStructFieldJsonInfo name tags =
      (let base : SStructFieldInfo :=
        { FieldName := name, OmitEmpty := true, OmitZero := false,
          OmitFalse := false, Tags := tags }
      let info1 := krest.foldl applyFlagToken
        (applyNameToken base k0 (!krest.isEmpty))
      match tags.lookup "name" with
      | some v => { info1 with Name := v }
      | none => info1) := by
  unfold ParseStructFieldJsonInfo
  simp only [h, hsplit]

theorem parse_json_none (name : String) (tags : List (String × String))
    (h : tags.lookup "json" = none) :
    ParseStructFieldJsonInfo name tags =
      (let base : SStructFieldInfo :=
        { FieldName := name, OmitEmpty := true, OmitZero := false,
          OmitFalse := false, Tags := tags }
      match tags.lookup "name" with
      | some v => { base with Name := v }
      | none => base) := by
  unfold ParseStructFieldJsonInfo
  simp only [h]

theorem firstMatchLoop_cons (info : SStructFieldInfo)
    (rest : List SStructFieldInfo) (name : String) (i : Nat) :
    firstMatchLoop (info :: rest) name i =
      if fieldMatches info name then (i : Int)
      else firstMatchLoop rest name (i + 1) := by
  conv_lhs => unfold firstMatchLoop
  unfold fieldMatches
  generalize firstMatchLoop rest name (i + 1) = R
  cases h1 : ((info.MarshalName).1 == name) <;>
    cases h2 : (CamelSplit info.FieldName "_" == CamelSplit name "_") <;>
      cases h3 : (info.FieldName == name) <;>
        cases h4 : (info.FieldName == Capitalize name) <;>
          simp [h1, h2, h3, h4]

theorem getIndexLoop_cons (e : SStructFieldValue)
    (rest : SStructFieldValueSet) (name : String) (i : Nat) :
    getIndexLoop (e :: rest) name i =
      if fieldMatches e.Info name then (i : Int)
      else getIndexLoop rest name (i + 1) := by
  conv_lhs => unfold getIndexLoop
  unfold fieldMatches
  generalize getIndexLoop rest name (i + 1) = R
  cases h1 : ((e.Info.MarshalName).1 == name) <;>
    cases h2 : (CamelSplit e.Info.FieldName "_" == CamelSplit name "_") <;>
      cases h3 : (e.Info.FieldName == name) <;>
        cases h4 : (e.Info.FieldName == Capitalize name) <;>
          simp [h1, h2, h3, h4]

theorem chainResolve_lb (infos : List SStructFieldInfo) (name : String) :
    chainResolve infos name = -1 ∨ 0 ≤ chainResolve infos name := by
  cases infos with
  | nil => exact Or.inl rfl
  | cons info rest =>
    unfold chainResolve
    by_cases h : fieldMatches info name = true
    · rw [if_pos h]; right; omega
    · rw [if_neg h]
      by_cases h2 : chainResolve rest name < 0
      · rw [if_pos h2]; left; rfl
      · rw [if_neg h2]; right; omega

theorem firstMatchLoop_eq_chain (infos : List SStructFieldInfo)
    (name : String) :
    ∀ i : Nat, firstMatchLoop infos name i =
      if chainResolve infos name < 0 then -1
      else chainResolve infos name + i := by
  induction infos with
  | nil =>
    intro i
    unfold firstMatchLoop chainResolve
    norm_num
  | cons info rest ih =>
    intro i
    rw [firstMatchLoop_cons]
    unfold chainResolve
    by_cases h : fieldMatches info name = true
    · rw [if_pos h, if_pos h]
      norm_num
    · rw [if_neg h, if_neg h, ih (i + 1)]
      by_cases h2 : chainResolve rest name < 0
      · rw [if_pos h2, if_pos (by rw [if_pos h2]; norm_num)]
      · rw [if_neg h2, if_neg (by rw [if_neg h2]; omega), if_neg (by omega)]
        push_cast
        omega

theorem firstMatchLoop_eq_chainResolve (infos : List SStructFieldInfo)
    (name : String) :
    firstMatchLoop infos name 0 = chainResolve infos name := by
  rw [firstMatchLoop_eq_chain]
  rcases chainResolve_lb infos name with h | h
  · rw [h]; norm_num
  · rw [if_neg (by omega)]; omega

theorem getIndexLoop_eq_firstMatchLoop (set : SStructFieldValueSet)
    (name : String) :
    ∀ i : Nat, getIndexLoop set name i =
      firstMatchLoop (set.map SStructFieldValue.Info) name i := by
  induction set with
  | nil => intro i; rfl
  | cons e rest ih =>
    intro i
    rw [List.map_cons, getIndexLoop_cons, firstMatchLoop_cons]
    by_cases h : fieldMatches e.Info name = true
    · rw [if_pos h, if_pos h]
    · rw [if_neg h, if_neg h, ih]

/-- C2: a `json:"-"` tag with no further tokens marks the field policy
ignored, while `-` followed by further tokens yields the literal
external name `-` and no ignore mark; contrary to the claim's first
half, the schema walker still appends the parsed policy of an exported
non-anonymous field to the flattened schema regardless of the ignore
mark (exclusion is left to consumers of the policy). -/
theorem C2_dash_tag_policy :
    (∀ (name : String) (tags : List (String × String)),
        tags.lookup "json" = some "-" →
        (ParseStructFieldJsonInfo name tags).Ignore = true)
    ∧ (∀ (name : String) (tags : List (String × String)) (val k : String)
          (ks : List String),
        tags.lookup "json" = some val → splitComma val = "-" :: k :: ks →
        (ParseStructFieldJsonInfo name tags).Ignore = false
          ∧ (tags.lookup "name" = none →
              (ParseStructFieldJsonInfo name tags).Name = "-"))
    ∧ (∀ (name : String) (tags : List (String × String)) (b : Bool)
          (v : GoValue),
        IsFieldExportable name = true →
        (fetchStructFieldInfosField (GoField.mk name tags false b v)).1
          = [ParseStructFieldJsonInfo name tags]) := by
  refine ⟨?_, ?_, ?_⟩
  · intro name tags h
    rw [parse_json_some name tags "-" h "-" [] rfl]
    cases hn : tags.lookup "name" <;>
      simp [hn, foldFlags_Ignore, applyNameToken]
  · intro name tags val k ks h hsplit
    rw [parse_json_some name tags val h "-" (k :: ks) hsplit]
    refine ⟨?_, ?_⟩
    · cases hn : tags.lookup "name" <;>
        simp [hn, foldFlags_Ignore, applyFlagToken_Ignore, applyNameToken]
    · intro hn
      simp [hn, foldFlags_Name, applyFlagToken_Name, applyNameToken]
  · intro name tags b v h
    unfold fetchStructFieldInfosField
    rw [if_neg (by rw [h]; simp)]
    rfl

/-- C2 witness: concrete fields exercising each conjunct. -/
theorem C2_dash_tag_policy_witness :
    (ParseStructFieldJsonInfo "F" [("json", "-")]).Ignore = true
    ∧ (ParseStructFieldJsonInfo "G" [("json", "-,string")]).Ignore = false
    ∧ (ParseStructFieldJsonInfo "G" [("json", "-,string")]).Name = "-"
    ∧ (fetchStructFieldInfosField
        (GoField.mk "F" [("json", "-")] false false (.leaf 1))).1
      = [ParseStructFieldJsonInfo "F" [("json", "-")]] :=
  ⟨C2_dash_tag_policy.1 "F" _ rfl,
   (C2_dash_tag_policy.2.1 "G" [("json", "-,string")] "-,string" "string" []
      rfl rfl).1,
   (C2_dash_tag_policy.2.1 "G" [("json", "-,string")] "-,string" "string" []
      rfl rfl).2 rfl,
   C2_dash_tag_policy.2.2 "F" _ false (.leaf 1) rfl⟩

/-- C2 counterexample: the claim asserts a field tagged `json:"-"` is
excluded from the flattened schema, but the schema walker keeps it:
both fields of `dashFields` appear, the tagged one with its ignore mark
set. -/
theorem C2_dash_field_in_schema :
    ((fetchStructFieldInfos dashFields).1.map
        (fun i => i.FieldName)) = ["F", "G"]
    ∧ ((fetchStructFieldInfos dashFields).1.map
        (fun i => i.Ignore)) = [true, false] :=
  ⟨rfl, rfl⟩

/-- C4: both index lookups resolve a name to the first field policy
passing the ordered fallback chain (external name, snake-case
normalization, source name, capitalized key), and an untagged field
declared `UserID` is found both under `user_id` and under `UserID`; a
key matching only after capitalization also resolves. -/
theorem C4_fallback_chain :
    (∀ (set : SStructFieldValueSet) (name : String),
        SStructFieldValueSet.GetStructFieldIndex set name
          = chainResolve (set.map SStructFieldValue.Info) name)
    ∧ (∀ (infos : List SStructFieldInfo) (name : String),
        firstMatchLoop infos name 0 = chainResolve infos name)
    ∧ SStructFieldValueSet.GetStructFieldIndex
        [⟨ParseStructFieldJsonInfo "UserID" [], .leaf 5⟩] "user_id" = 0
    ∧ SStructFieldValueSet.GetStructFieldIndex
        [⟨ParseStructFieldJsonInfo "UserID" [], .leaf 5⟩] "UserID" = 0
    ∧ SStructFieldValueSet.GetStructFieldIndex
        [⟨ParseStructFieldJsonInfo "IDCard" [], .leaf 1⟩] "iDCard" = 0 := by
  refine ⟨?_, firstMatchLoop_eq_chainResolve, by decide, by decide, by decide⟩
  intro set name
  unfold SStructFieldValueSet.GetStructFieldIndex
  rw [getIndexLoop_eq_firstMatchLoop, firstMatchLoop_eq_chainResolve]

/-- C6: `OmitEmpty` defaults to true, also for untagged fields, and is
finally determined by the last `omitempty`/`allowempty` token of the
tag (last one wins; no error on conflicting tokens). -/
theorem C6_omitempty_default_last_wins :
    ∀ (name : String) (tags : List (String × String)),
      (tags.lookup "json" = none →
        (ParseStructFieldJsonInfo name tags).OmitEmpty = true)
      ∧ (∀ val, tags.lookup "json" = some val →
          (ParseStructFieldJsonInfo name tags).OmitEmpty =
            (match ((splitComma val).tail.filter isEmptyFlagToken).getLast? with
             | none => true
             | some t => (toLowerStr t == "omitempty"))) := by
  intro name tags
  constructor
  · intro h
    rw [parse_json_none name tags h]
    cases hn : tags.lookup "name" <;> simp [hn]
  · intro val h
    cases hsplit : splitComma val with
    | nil =>
      unfold ParseStructFieldJsonInfo
      simp only [h, hsplit]
      cases hn : tags.lookup "name" <;> simp [hn]
    | cons k0 krest =>
      rw [parse_json_some name tags val h k0 krest hsplit]
      cases hn : tags.lookup "name" <;>
        simp [hn, foldFlags_OmitEmpty, applyNameToken_OmitEmpty]

/-- C6 witness: untagged default, explicit clearing, and last-wins on
conflicting tokens. -/
theorem C6_omitempty_witness :
    (ParseStructFieldJsonInfo "F" []).OmitEmpty = true
    ∧ (ParseStructFieldJsonInfo "F" [("json", "x,allowempty")]).OmitEmpty
        = false
    ∧ (ParseStructFieldJsonInfo "F"
        [("json", "x,omitempty,allowempty")]).OmitEmpty = false
    ∧ (ParseStructFieldJsonInfo "F"
        [("json", "x,allowempty,omitempty")]).OmitEmpty = true :=
  ⟨(C6_omitempty_default_last_wins "F" []).1 rfl,
   (C6_omitempty_default_last_wins "F" _).2 "x,allowempty" rfl,
   (C6_omitempty_default_last_wins "F" _).2 "x,omitempty,allowempty" rfl,
   (C6_omitempty_default_last_wins "F" _).2 "x,allowempty,omitempty" rfl⟩

/-- C7: `MarshalName` is lazy, memoized and idempotent: a non-empty
stored external name is returned with the policy unchanged; an empty
one is derived by snake-case splitting the declared field name and
stored; calling again on the updated policy returns the same pair. -/
theorem C7_marshalname_memoized :
    ∀ info : SStructFieldInfo,
      (info.MarshalName).2.Name = (info.MarshalName).1
      ∧ (info.MarshalName).2.MarshalName = info.MarshalName
      ∧ (0 < info.Name.length → info.MarshalName = (info.Name, info))
      ∧ (info.Name.length = 0 →
          info.MarshalName =
            (CamelSplit info.FieldName "_",
             { info with Name := CamelSplit info.FieldName "_" })) := by
  intro info
  by_cases h : 0 < info.Name.length
  · have h1 : info.MarshalName = (info.Name, info) := by
      unfold SStructFieldInfo.MarshalName
      rw [if_pos h]
    refine ⟨by rw [h1], by rw [h1, h1], fun _ => h1, fun h0 => by omega⟩
  · have h0 : info.Name.length = 0 := by omega
    have h1 : info.MarshalName =
        (CamelSplit info.FieldName "_",
         { info with Name := CamelSplit info.FieldName "_" }) := by
      unfold SStructFieldInfo.MarshalName
      rw [if_neg h]
    refine ⟨by rw [h1], ?_, fun hc => by omega, fun _ => h1⟩
    rw [h1]
    by_cases h2 : 0 < (CamelSplit info.FieldName "_").length
    · unfold SStructFieldInfo.MarshalName
      rw [if_pos (by simpa using h2)]
    · unfold SStructFieldInfo.MarshalName
      rw [if_neg (by simpa using h2)]

/-- C7 witness: an untagged `UserID` field derives `user_id`, and the
derivation is memoized. -/
theorem C7_marshalname_witness :
    ((ParseStructFieldJsonInfo "UserID" []).MarshalName).1 = "user_id"
    ∧ ((ParseStructFieldJsonInfo "UserID" []).MarshalName).2.MarshalName
        = (ParseStructFieldJsonInfo "UserID" []).MarshalName := by
  constructor
  · rw [(C7_marshalname_memoized (ParseStructFieldJsonInfo "UserID" [])).2.2.2
      (by rfl)]
    rfl
  · exact (C7_marshalname_memoized (ParseStructFieldJsonInfo "UserID" [])).2.1

/-! Step equations for the v2 value walker, one per branch of the
source; the later induction proofs rewrite with these only. -/

theorem v2s_nil (a : Bool) (i : Nat) :
    fetchStructFieldValueV2s [] a i = ([], i, []) := rfl

theorem v2s_cons (f : GoField) (fs : List GoField) (a : Bool) (i : Nat) :
    fetchStructFieldValueV2s (f :: fs) a i =
      ((fetchStructFieldValueV2sField f a i).1
          ++ (fetchStructFieldValueV2s fs a
              (fetchStructFieldValueV2sField f a i).2.1).1,
       (fetchStructFieldValueV2s fs a
          (fetchStructFieldValueV2sField f a i).2.1).2.1,
       (fetchStructFieldValueV2sField f a i).2.2
          :: (fetchStructFieldValueV2s fs a
              (fetchStructFieldValueV2sField f a i).2.1).2.2) := rfl

theorem v2sField_unexported (name : String) (tags : List (String × String))
    (anon isTime : Bool) (v : GoValue) (a : Bool) (i : Nat)
    (hx : IsFieldExportable name = false) :
    fetchStructFieldValueV2sField (GoField.mk name tags anon isTime v) a i
      = ([], i, GoField.mk name tags anon isTime v) := by
  unfold fetchStructFieldValueV2sField
  rw [if_pos hx]

theorem v2sField_plain (name : String) (tags : List (String × String))
    (isTime : Bool) (v : GoValue) (a : Bool) (i : Nat)
    (hx : IsFieldExportable name = true) :
    fetchStructFieldValueV2sField (GoField.mk name tags false isTime v) a i
      = ([⟨v, i⟩], i + 1, GoField.mk name tags false isTime v) := by
  unfold fetchStructFieldValueV2sField
  rw [if_neg (by rw [hx]; simp)]
  rfl

theorem v2sField_ptrNil_read (name : String) (tags : List (String × String))
    (isTime : Bool) (z : GoValue) (i : Nat)
    (hx : IsFieldExportable name = true) :
    fetchStructFieldValueV2sField
        (GoField.mk name tags true isTime (.ptr z none)) false i
      = ([], i + 1, GoField.mk name tags true isTime (.ptr z none)) := by
  unfold fetchStructFieldValueV2sField
  rw [if_neg (by rw [hx]; simp)]
  rfl

theorem v2sField_ptrNil_write (name : String) (tags : List (String × String))
    (isTime : Bool) (z : GoValue) (i : Nat)
    (hx : IsFieldExportable name = true) :
    fetchStructFieldValueV2sField
        (GoField.mk name tags true isTime (.ptr z none)) true i
      = ((fetchStructFieldValueV2sElem isTime z true i).1,
         (fetchStructFieldValueV2sElem isTime z true i).2.1,
         GoField.mk name tags true isTime
           (.ptr z (some (fetchStructFieldValueV2sElem isTime z true i).2.2))) := by
  unfold fetchStructFieldValueV2sField
  rw [if_neg (by rw [hx]; simp)]
  rfl

theorem v2sField_ifaceNil (name : String) (tags : List (String × String))
    (isTime : Bool) (a : Bool) (i : Nat)
    (hx : IsFieldExportable name = true) :
    fetchStructFieldValueV2sField
        (GoField.mk name tags true isTime (.iface none)) a i
      = ([], i + 1, GoField.mk name tags true isTime (.iface none)) := by
  unfold fetchStructFieldValueV2sField
  rw [if_neg (by rw [hx]; simp)]
  rfl

theorem v2sField_ptrSome (name : String) (tags : List (String × String))
    (isTime : Bool) (z w : GoValue) (a : Bool) (i : Nat)
    (hx : IsFieldExportable name = true) :
    fetchStructFieldValueV2sField
        (GoField.mk name tags true isTime (.ptr z (some w))) a i
      = ((fetchStructFieldValueV2sElem isTime w a i).1,
         (fetchStructFieldValueV2sElem isTime w a i).2.1,
         GoField.mk name tags true isTime
           (.ptr z (some (fetchStructFieldValueV2sElem isTime w a i).2.2))) := by
  unfold fetchStructFieldValueV2sField
  rw [if_neg (by rw [hx]; simp)]
  rfl

theorem v2sField_ifaceSome (name : String) (tags : List (String × String))
    (isTime : Bool) (w : GoValue) (a : Bool) (i : Nat)
    (hx : IsFieldExportable name = true) :
    fetchStructFieldValueV2sField
        (GoField.mk name tags true isTime (.iface (some w))) a i
      = ((fetchStructFieldValueV2sElem isTime w a i).1,
         (fetchStructFieldValueV2sElem isTime w a i).2.1,
         GoField.mk name tags true isTime
           (.iface (some (fetchStructFieldValueV2sElem isTime w a i).2.2))) := by
  unfold fetchStructFieldValueV2sField
  rw [if_neg (by rw [hx]; simp)]
  rfl

theorem v2sField_anonLeaf (name : String) (tags : List (String × String))
    (isTime : Bool) (n : Nat) (a : Bool) (i : Nat)
    (hx : IsFieldExportable name = true) :
    fetchStructFieldValueV2sField
        (GoField.mk name tags true isTime (.leaf n)) a i
      = ([⟨.leaf n, i⟩], i + 1, GoField.mk name tags true isTime (.leaf n)) := by
  unfold fetchStructFieldValueV2sField
  rw [if_neg (by rw [hx]; simp)]
  rfl

theorem v2sField_anonStrukt (name : String) (tags : List (String × String))
    (isTime : Bool) (gs : List GoField) (a : Bool) (i : Nat)
    (hx : IsFieldExportable name = true) :
    fetchStructFieldValueV2sField
        (GoField.mk name tags true isTime (.strukt gs)) a i
      = ((fetchStructFieldValueV2sElem isTime (.strukt gs) a i).1,
         (fetchStructFieldValueV2sElem isTime (.strukt gs) a i).2.1,
         GoField.mk name tags true isTime
           (fetchStructFieldValueV2sElem isTime (.strukt gs) a i).2.2) := by
  unfold fetchStructFieldValueV2sField
  rw [if_neg (by rw [hx]; simp)]
  rfl

theorem v2sElem_leaf (isTime : Bool) (n : Nat) (a : Bool) (i : Nat) :
    fetchStructFieldValueV2sElem isTime (.leaf n) a i
      = ([⟨.leaf n, i⟩], i + 1, .leaf n) := rfl

theorem v2sElem_ptr (isTime : Bool) (z : GoValue) (t : Option GoValue)
    (a : Bool) (i : Nat) :
    fetchStructFieldValueV2sElem isTime (.ptr z t) a i
      = ([⟨.ptr z t, i⟩], i + 1, .ptr z t) := rfl

theorem v2sElem_iface (isTime : Bool) (t : Option GoValue) (a : Bool)
    (i : Nat) :
    fetchStructFieldValueV2sElem isTime (.iface t) a i
      = ([⟨.iface t, i⟩], i + 1, .iface t) := rfl

theorem v2sElem_struktTime (gs : List GoField) (a : Bool) (i : Nat) :
    fetchStructFieldValueV2sElem true (.strukt gs) a i
      = ([⟨.strukt gs, i⟩], i + 1, .strukt gs) := rfl

theorem v2sElem_strukt (gs : List GoField) (a : Bool) (i : Nat) :
    fetchStructFieldValueV2sElem false (.strukt gs) a i
      = ((fetchStructFieldValueV2s gs a i).1,
         (fetchStructFieldValueV2s gs a i).2.1,
         .strukt (fetchStructFieldValueV2s gs a i).2.2) := rfl

/-! Step equations for the schema walker. -/

theorem infos_nil : fetchStructFieldInfos [] = ([], []) := rfl

theorem infos_cons (f : GoField) (fs : List GoField) :
    fetchStructFieldInfos (f :: fs) =
      ((fetchStructFieldInfosField f).1 ++ (fetchStructFieldInfos fs).1,
       (fetchStructFieldInfosField f).2 :: (fetchStructFieldInfos fs).2) := rfl

theorem infosField_unexported (name : String)
    (tags : List (String × String)) (anon isTime : Bool) (v : GoValue)
    (hx : IsFieldExportable name = false) :
    fetchStructFieldInfosField (GoField.mk name tags anon isTime v)
      = ([], GoField.mk name tags anon isTime v) := by
  unfold fetchStructFieldInfosField
  rw [if_pos hx]

theorem infosField_plain (name : String) (tags : List (String × String))
    (isTime : Bool) (v : GoValue) (hx : IsFieldExportable name = true) :
    fetchStructFieldInfosField (GoField.mk name tags false isTime v)
      = ([ParseStructFieldJsonInfo name tags],
         GoField.mk name tags false isTime v) := by
  unfold fetchStructFieldInfosField
  rw [if_neg (by rw [hx]; simp)]
  rfl

theorem infosField_ptrNil (name : String) (tags : List (String × String))
    (isTime : Bool) (z : GoValue) (hx : IsFieldExportable name = true) :
    fetchStructFieldInfosField (GoField.mk name tags true isTime (.ptr z none))
      = ((fetchStructFieldInfosElem name tags isTime z).1,
         GoField.mk name tags true isTime
           (.ptr z (some (fetchStructFieldInfosElem name tags isTime z).2))) := by
  unfold fetchStructFieldInfosField
  rw [if_neg (by rw [hx]; simp)]
  rfl

theorem infosField_ptrSome (name : String) (tags : List (String × String))
    (isTime : Bool) (z w : GoValue) (hx : IsFieldExportable name = true) :
    fetchStructFieldInfosField
        (GoField.mk name tags true isTime (.ptr z (some w)))
      = ((fetchStructFieldInfosElem name tags isTime w).1,
         GoField.mk name tags true isTime
           (.ptr z (some (fetchStructFieldInfosElem name tags isTime w).2))) := by
  unfold fetchStructFieldInfosField
  rw [if_neg (by rw [hx]; simp)]
  rfl

theorem infosField_anonLeaf (name : String) (tags : List (String × String))
    (isTime : Bool) (n : Nat) (hx : IsFieldExportable name = true) :
    fetchStructFieldInfosField (GoField.mk name tags true isTime (.leaf n))
      = ((fetchStructFieldInfosElem name tags isTime (.leaf n)).1,
         GoField.mk name tags true isTime
           (fetchStructFieldInfosElem name tags isTime (.leaf n)).2) := by
  unfold fetchStructFieldInfosField
  rw [if_neg (by rw [hx]; simp)]
  rfl

theorem infosField_anonStrukt (name : String) (tags : List (String × String))
    (isTime : Bool) (gs : List GoField) (hx : IsFieldExportable name = true) :
    fetchStructFieldInfosField
        (GoField.mk name tags true isTime (.strukt gs))
      = ((fetchStructFieldInfosElem name tags isTime (.strukt gs)).1,
         GoField.mk name tags true isTime
           (fetchStructFieldInfosElem name tags isTime (.strukt gs)).2) := by
  unfold fetchStructFieldInfosField
  rw [if_neg (by rw [hx]; simp)]
  rfl

theorem infosField_anonIface (name : String) (tags : List (String × String))
    (isTime : Bool) (t : Option GoValue)
    (hx : IsFieldExportable name = true) :
    fetchStructFieldInfosField (GoField.mk name tags true isTime (.iface t))
      = ((fetchStructFieldInfosElem name tags isTime (.iface t)).1,
         GoField.mk name tags true isTime
           (fetchStructFieldInfosElem name tags isTime (.iface t)).2) := by
  unfold fetchStructFieldInfosField
  rw [if_neg (by rw [hx]; simp)]
  rfl

theorem infosElem_leaf (name : String) (tags : List (String × String))
    (isTime : Bool) (n : Nat) :
    fetchStructFieldInfosElem name tags isTime (.leaf n)
      = ([ParseStructFieldJsonInfo name tags], .leaf n) := rfl

theorem infosElem_ptr (name : String) (tags : List (String × String))
    (isTime : Bool) (z : GoValue) (t : Option GoValue) :
    fetchStructFieldInfosElem name tags isTime (.ptr z t)
      = ([ParseStructFieldJsonInfo name tags], .ptr z t) := rfl

theorem infosElem_struktTime (name : String)
    (tags : List (String × String)) (gs : List GoField) :
    fetchStructFieldInfosElem name tags true (.strukt gs)
      = ([ParseStructFieldJsonInfo name tags], .strukt gs) := rfl

theorem infosElem_strukt (name : String) (tags : List (String × String))
    (gs : List GoField) :
    fetchStructFieldInfosElem name tags false (.strukt gs)
      = ((fetchStructFieldInfos gs).1,
         .strukt (fetchStructFieldInfos gs).2) := rfl

theorem infosElem_ifaceNone (name : String)
    (tags : List (String × String)) (isTime : Bool) :
    fetchStructFieldInfosElem name tags isTime (.iface none)
      = ([ParseStructFieldJsonInfo name tags], .iface none) := rfl

theorem infosElem_ifaceStruktTime (name : String)
    (tags : List (String × String)) (gs : List GoField) :
    fetchStructFieldInfosElem name tags true (.iface (some (.strukt gs)))
      = ([ParseStructFieldJsonInfo name tags],
         .iface (some (.strukt gs))) := rfl

theorem infosElem_ifaceStrukt (name : String)
    (tags : List (String × String)) (gs : List GoField) :
    fetchStructFieldInfosElem name tags false (.iface (some (.strukt gs)))
      = ((fetchStructFieldInfos gs).1,
         .iface (some (.strukt (fetchStructFieldInfos gs).2))) := rfl

theorem infosElem_ifaceLeaf (name : String)
    (tags : List (String × String)) (isTime : Bool) (n : Nat) :
    fetchStructFieldInfosElem name tags isTime (.iface (some (.leaf n)))
      = ([ParseStructFieldJsonInfo name tags], .iface (some (.leaf n))) := rfl

theorem infosElem_ifacePtr (name : String)
    (tags : List (String × String)) (isTime : Bool) (z : GoValue)
    (t : Option GoValue) :
    fetchStructFieldInfosElem name tags isTime (.iface (some (.ptr z t)))
      = ([ParseStructFieldJsonInfo name tags],
         .iface (some (.ptr z t))) := rfl

theorem infosElem_ifaceIface (name : String)
    (tags : List (String × String)) (isTime : Bool) (t : Option GoValue) :
    fetchStructFieldInfosElem name tags isTime (.iface (some (.iface t)))
      = ([ParseStructFieldJsonInfo name tags],
         .iface (some (.iface t))) := rfl

/-! Step equations for the v1 value walker. -/

theorem v1s_nil (a : Bool) : fetchStructFieldValueSet [] a = ([], []) := rfl

theorem v1s_cons (f : GoField) (fs : List GoField) (a : Bool) :
    fetchStructFieldValueSet (f :: fs) a =
      ((fetchStructFieldValueSetField f a).1
          ++ (fetchStructFieldValueSet fs a).1,
       (fetchStructFieldValueSetField f a).2
          :: (fetchStructFieldValueSet fs a).2) := rfl

theorem v1sField_unexported (name : String) (tags : List (String × String))
    (anon isTime : Bool) (v : GoValue) (a : Bool)
    (hx : IsFieldExportable name = false) :
    fetchStructFieldValueSetField (GoField.mk name tags anon isTime v) a
      = ([], GoField.mk name tags anon isTime v) := by
  unfold fetchStructFieldValueSetField
  rw [if_pos hx]

theorem v1sField_plain (name : String) (tags : List (String × String))
    (isTime : Bool) (v : GoValue) (a : Bool)
    (hx : IsFieldExportable name = true) :
    fetchStructFieldValueSetField (GoField.mk name tags false isTime v) a
      = ([⟨ParseStructFieldJsonInfo name tags, v⟩],
         GoField.mk name tags false isTime v) := by
  unfold fetchStructFieldValueSetField
  rw [if_neg (by rw [hx]; simp)]
  rfl

theorem v1sField_ptrNil_read (name : String) (tags : List (String × String))
    (isTime : Bool) (z : GoValue) (hx : IsFieldExportable name = true) :
    fetchStructFieldValueSetField
        (GoField.mk name tags true isTime (.ptr z none)) false
      = ([], GoField.mk name tags true isTime (.ptr z none)) := by
  unfold fetchStructFieldValueSetField
  rw [if_neg (by rw [hx]; simp)]
  rfl

theorem v1sField_ptrNil_write (name : String)
    (tags : List (String × String)) (isTime : Bool) (z : GoValue)
    (hx : IsFieldExportable name = true) :
    fetchStructFieldValueSetField
        (GoField.mk name tags true isTime (.ptr z none)) true
      = ((fetchStructFieldValueSetElem name tags isTime z true).1,
         GoField.mk name tags true isTime
           (.ptr z (some (fetchStructFieldValueSetElem name tags isTime z true).2))) := by
  unfold fetchStructFieldValueSetField
  rw [if_neg (by rw [hx]; simp)]
  rfl

theorem v1sField_ifaceNil (name : String) (tags : List (String × String))
    (isTime : Bool) (a : Bool) (hx : IsFieldExportable name = true) :
    fetchStructFieldValueSetField
        (GoField.mk name tags true isTime (.iface none)) a
      = ([], GoField.mk name tags true isTime (.iface none)) := by
  unfold fetchStructFieldValueSetField
  rw [if_neg (by rw [hx]; simp)]
  rfl

theorem v1sField_ptrSome (name : String) (tags : List (String × String))
    (isTime : Bool) (z w : GoValue) (a : Bool)
    (hx : IsFieldExportable name = true) :
    fetchStructFieldValueSetField
        (GoField.mk name tags true isTime (.ptr z (some w))) a
      = ((fetchStructFieldValueSetElem name tags isTime w a).1,
         GoField.mk name tags true isTime
           (.ptr z (some (fetchStructFieldValueSetElem name tags isTime w a).2))) := by
  unfold fetchStructFieldValueSetField
  rw [if_neg (by rw [hx]; simp)]
  rfl

theorem v1sField_ifaceSome (name : String) (tags : List (String × String))
    (isTime : Bool) (w : GoValue) (a : Bool)
    (hx : IsFieldExportable name = true) :
    fetchStructFieldValueSetField
        (GoField.mk name tags true isTime (.iface (some w))) a
      = ((fetchStructFieldValueSetElem name tags isTime w a).1,
         GoField.mk name tags true isTime
           (.iface (some (fetchStructFieldValueSetElem name tags isTime w a).2))) := by
  unfold fetchStructFieldValueSetField
  rw [if_neg (by rw [hx]; simp)]
  rfl

theorem v1sField_anonLeaf (name : String) (tags : List (String × String))
    (isTime : Bool) (n : Nat) (a : Bool)
    (hx : IsFieldExportable name = true) :
    fetchStructFieldValueSetField
        (GoField.mk name tags true isTime (.leaf n)) a
      = ([⟨ParseStructFieldJsonInfo name tags, .leaf n⟩],
         GoField.mk name tags true isTime (.leaf n)) := by
  unfold fetchStructFieldValueSetField
  rw [if_neg (by rw [hx]; simp)]
  rfl

theorem v1sField_anonStrukt (name : String) (tags : List (String × String))
    (isTime : Bool) (gs : List GoField) (a : Bool)
    (hx : IsFieldExportable name = true) :
    fetchStructFieldValueSetField
        (GoField.mk name tags true isTime (.strukt gs)) a
      = ((fetchStructFieldValueSetElem name tags isTime (.strukt gs) a).1,
         GoField.mk name tags true isTime
           (fetchStructFieldValueSetElem name tags isTime (.strukt gs) a).2) := by
  unfold fetchStructFieldValueSetField
  rw [if_neg (by rw [hx]; simp)]
  rfl

theorem v1sElem_leaf (name : String) (tags : List (String × String))
    (isTime : Bool) (n : Nat) (a : Bool) :
    fetchStructFieldValueSetElem name tags isTime (.leaf n) a
      = ([⟨ParseStructFieldJsonInfo name tags, .leaf n⟩], .leaf n) := rfl

theorem v1sElem_ptr (name : String) (tags : List (String × String))
    (isTime : Bool) (z : GoValue) (t : Option GoValue) (a : Bool) :
    fetchStructFieldValueSetElem name tags isTime (.ptr z t) a
      = ([⟨ParseStructFieldJsonInfo name tags, .ptr z t⟩], .ptr z t) := rfl

theorem v1sElem_iface (name : String) (tags : List (String × String))
    (isTime : Bool) (t : Option GoValue) (a : Bool) :
    fetchStructFieldValueSetElem name tags isTime (.iface t) a
      = ([⟨ParseStructFieldJsonInfo name tags, .iface t⟩], .iface t) := rfl

theorem v1sElem_struktTime (name : String) (tags : List (String × String))
    (gs : List GoField) (a : Bool) :
    fetchStructFieldValueSetElem name tags true (.strukt gs) a
      = ([⟨ParseStructFieldJsonInfo name tags, .strukt gs⟩],
         .strukt gs) := rfl

theorem v1sElem_strukt (name : String) (tags : List (String × String))
    (gs : List GoField) (a : Bool) :
    fetchStructFieldValueSetElem name tags false (.strukt gs) a
      = ((fetchStructFieldValueSet gs a).1,
         .strukt (fetchStructFieldValueSet gs a).2) := rfl

theorem readPreservesV2 :
    ∀ (fs : List GoField) (a : Bool) (i : Nat), a = false →
      (fetchStructFieldValueV2s fs a i).2.2 = fs := by
  refine fetchStructFieldValueV2s.induct
    (fun fs a i => a = false → (fetchStructFieldValueV2s fs a i).2.2 = fs)
    (fun f a i => a = false → (fetchStructFieldValueV2sField f a i).2.2 = f)
    (fun t v a i => a = false → (fetchStructFieldValueV2sElem t v a i).2.2 = v)
    ?_ ?_ ?_ ?_ ?_ ?_ ?_ ?_ ?_ ?_ ?_ ?_ ?_
  · intro fs a i _
    rw [v2sElem_struktTime]
  · intro t fs a i ht ih h
    rw [Bool.not_eq_true] at ht
    subst ht
    rw [v2sElem_strukt, ih h]
  · intro t v a i hno _
    cases v with
    | strukt fs => exact ((hno fs) rfl).elim
    | leaf n => rfl
    | ptr z tgt => rfl
    | iface tgt => rfl
  · intro name tags anon isTime v a i hx _
    rw [v2sField_unexported name tags anon isTime v a i hx]
  · intro name tags isTime i hx z ih h
    exact Bool.noConfusion h
  · intro name tags isTime a i hx z hna h
    subst h
    rw [v2sField_ptrNil_read name tags isTime z i (Bool.of_not_eq_false hx)]
  · intro name tags isTime a i hx h
    rw [v2sField_ifaceNil name tags isTime a i (Bool.of_not_eq_false hx)]
  · intro name tags isTime a i hx z w ih h
    rw [v2sField_ptrSome name tags isTime z w a i (Bool.of_not_eq_false hx),
      ih h]
  · intro name tags isTime a i hx w ih h
    rw [v2sField_ifaceSome name tags isTime w a i (Bool.of_not_eq_false hx),
      ih h]
  · intro name tags isTime a i hx v0 hno1 hno2 hno3 hno4 ih h
    cases v0 with
    | leaf n =>
      rw [v2sField_anonLeaf name tags isTime n a i (Bool.of_not_eq_false hx)]
    | strukt gs =>
      rw [v2sField_anonStrukt name tags isTime gs a i
        (Bool.of_not_eq_false hx), ih h]
    | ptr z tgt =>
      cases tgt with
      | none => exact ((hno1 z) rfl).elim
      | some w => exact ((hno3 z w) rfl).elim
    | iface tgt =>
      cases tgt with
      | none => exact (hno2 rfl).elim
      | some w => exact ((hno4 w) rfl).elim
  · intro name tags anon isTime v a i hx hna _
    rw [Bool.not_eq_true] at hna
    subst hna
    rw [v2sField_plain name tags isTime v a i (Bool.of_not_eq_false hx)]
  · intro a i _
    rfl
  · intro f fs a i r1 ih1 ih2 h
    rw [v2s_cons, ih1 h]
    exact congrArg (List.cons f) (ih2 h)

theorem readPreservesV1 :
    ∀ (fs : List GoField) (a : Bool), a = false →
      (fetchStructFieldValueSet fs a).2 = fs := by
  refine fetchStructFieldValueSet.induct
    (fun fs a => a = false → (fetchStructFieldValueSet fs a).2 = fs)
    (fun f a => a = false → (fetchStructFieldValueSetField f a).2 = f)
    (fun name tags t v a => a = false →
      (fetchStructFieldValueSetElem name tags t v a).2 = v)
    ?_ ?_ ?_ ?_ ?_ ?_ ?_ ?_ ?_ ?_ ?_ ?_ ?_
  · intro name tags fs a _
    rw [v1sElem_struktTime]
  · intro name tags t fs a ht ih h
    rw [Bool.not_eq_true] at ht
    subst ht
    rw [v1sElem_strukt, ih h]
  · intro name tags t v a hno _
    cases v with
    | strukt fs => exact ((hno fs) rfl).elim
    | leaf n => rfl
    | ptr z tgt => rfl
    | iface tgt => rfl
  · intro name tags anon isTime v a hx _
    rw [v1sField_unexported name tags anon isTime v a hx]
  · intro name tags isTime hx z ih h
    exact Bool.noConfusion h
  · intro name tags isTime a hx z hna h
    subst h
    rw [v1sField_ptrNil_read name tags isTime z (Bool.of_not_eq_false hx)]
  · intro name tags isTime a hx h
    rw [v1sField_ifaceNil name tags isTime a (Bool.of_not_eq_false hx)]
  · intro name tags isTime a hx z w ih h
    rw [v1sField_ptrSome name tags isTime z w a (Bool.of_not_eq_false hx),
      ih h]
  · intro name tags isTime a hx w ih h
    rw [v1sField_ifaceSome name tags isTime w a (Bool.of_not_eq_false hx),
      ih h]
  · intro name tags isTime a hx v0 hno1 hno2 hno3 hno4 ih h
    cases v0 with
    | leaf n =>
      rw [v1sField_anonLeaf name tags isTime n a (Bool.of_not_eq_false hx)]
    | strukt gs =>
      rw [v1sField_anonStrukt name tags isTime gs a
        (Bool.of_not_eq_false hx), ih h]
    | ptr z tgt =>
      cases tgt with
      | none => exact ((hno1 z) rfl).elim
      | some w => exact ((hno3 z w) rfl).elim
    | iface tgt =>
      cases tgt with
      | none => exact (hno2 rfl).elim
      | some w => exact ((hno4 w) rfl).elim
  · intro name tags anon isTime v a hx hna _
    rw [Bool.not_eq_true] at hna
    subst hna
    rw [v1sField_plain name tags isTime v a (Bool.of_not_eq_false hx)]
  · intro a _
    rfl
  · intro f fs a ih1 ih2 h
    rw [v1s_cons, ih1 h]
    exact congrArg (List.cons f) (ih2 h)

theorem monoV2 :
    ∀ (fs : List GoField) (a : Bool) (i : Nat),
      V2Mono (fetchStructFieldValueV2s fs a i).1 i
        (fetchStructFieldValueV2s fs a i).2.1 := by
  refine fetchStructFieldValueV2s.induct
    (fun fs a i => V2Mono (fetchStructFieldValueV2s fs a i).1 i
      (fetchStructFieldValueV2s fs a i).2.1)
    (fun f a i => V2Mono (fetchStructFieldValueV2sField f a i).1 i
      (fetchStructFieldValueV2sField f a i).2.1)
    (fun t v a i => V2Mono (fetchStructFieldValueV2sElem t v a i).1 i
      (fetchStructFieldValueV2sElem t v a i).2.1)
    ?_ ?_ ?_ ?_ ?_ ?_ ?_ ?_ ?_ ?_ ?_ ?_ ?_
  · intro fs a i
    rw [v2sElem_struktTime]
    exact v2Mono_single _ i
  · intro t fs a i ht ih
    rw [Bool.not_eq_true] at ht
    subst ht
    rw [v2sElem_strukt]
    exact ih
  · intro t v a i hno
    cases v with
    | strukt fs => exact ((hno fs) rfl).elim
    | leaf n => exact v2Mono_single _ i
    | ptr z tgt => exact v2Mono_single _ i
    | iface tgt => exact v2Mono_single _ i
  · intro name tags anon isTime v a i hx
    rw [v2sField_unexported name tags anon isTime v a i hx]
    exact v2Mono_nil i i (le_refl i)
  · intro name tags isTime i hx z ih
    rw [v2sField_ptrNil_write name tags isTime z i (Bool.of_not_eq_false hx)]
    exact ih
  · intro name tags isTime a i hx z hna
    rw [Bool.not_eq_true] at hna
    subst hna
    rw [v2sField_ptrNil_read name tags isTime z i (Bool.of_not_eq_false hx)]
    exact v2Mono_nil i (i + 1) (by omega)
  · intro name tags isTime a i hx
    rw [v2sField_ifaceNil name tags isTime a i (Bool.of_not_eq_false hx)]
    exact v2Mono_nil i (i + 1) (by omega)
  · intro name tags isTime a i hx z w ih
    rw [v2sField_ptrSome name tags isTime z w a i (Bool.of_not_eq_false hx)]
    exact ih
  · intro name tags isTime a i hx w ih
    rw [v2sField_ifaceSome name tags isTime w a i (Bool.of_not_eq_false hx)]
    exact ih
  · intro name tags isTime a i hx v0 hno1 hno2 hno3 hno4 ih
    cases v0 with
    | leaf n =>
      rw [v2sField_anonLeaf name tags isTime n a i (Bool.of_not_eq_false hx)]
      exact v2Mono_single _ i
    | strukt gs =>
      rw [v2sField_anonStrukt name tags isTime gs a i
        (Bool.of_not_eq_false hx)]
      exact ih
    | ptr z tgt =>
      cases tgt with
      | none => exact ((hno1 z) rfl).elim
      | some w => exact ((hno3 z w) rfl).elim
    | iface tgt =>
      cases tgt with
      | none => exact (hno2 rfl).elim
      | some w => exact ((hno4 w) rfl).elim
  · intro name tags anon isTime v a i hx hna
    rw [Bool.not_eq_true] at hna
    subst hna
    rw [v2sField_plain name tags isTime v a i (Bool.of_not_eq_false hx)]
    exact v2Mono_single _ i
  · intro a i
    exact v2Mono_nil i i (le_refl i)
  · intro f fs a i r1 ih1 ih2
    rw [v2s_cons]
    exact v2Mono_append ih1 ih2

theorem ifaceFree_leaf (n : Nat) : ifaceFreeV (.leaf n) = true := rfl

theorem ifaceFree_strukt (gs : List GoField) :
    ifaceFreeV (.strukt gs) = ifaceFreeFields gs := rfl

theorem ifaceFree_ptrNone (z : GoValue) :
    ifaceFreeV (.ptr z none) = ifaceFreeV z := by
  rw [show ifaceFreeV (.ptr z none) = (ifaceFreeV z && true) from rfl,
    Bool.and_true]

theorem ifaceFree_ptrSome (z w : GoValue) :
    ifaceFreeV (.ptr z (some w)) = (ifaceFreeV z && ifaceFreeV w) := rfl

theorem ifaceFree_iface (t : Option GoValue) :
    ifaceFreeV (.iface t) = false := rfl

theorem ifaceFreeField_mk (name : String) (tags : List (String × String))
    (anon isTime : Bool) (v : GoValue) :
    ifaceFreeField (GoField.mk name tags anon isTime v) = ifaceFreeV v := rfl

theorem ifaceFreeFields_cons (f : GoField) (fs : List GoField) :
    ifaceFreeFields (f :: fs) = (ifaceFreeField f && ifaceFreeFields fs) := rfl

theorem countEqV2 :
    ∀ (fs : List GoField) (a : Bool) (i : Nat), a = true →
      ifaceFreeFields fs = true →
      (fetchStructFieldValueV2s fs a i).1.length
        = (fetchStructFieldInfos fs).1.length := by
  refine fetchStructFieldValueV2s.induct
    (fun fs a i => a = true → ifaceFreeFields fs = true →
      (fetchStructFieldValueV2s fs a i).1.length
        = (fetchStructFieldInfos fs).1.length)
    (fun f a i => a = true → ifaceFreeField f = true →
      (fetchStructFieldValueV2sField f a i).1.length
        = (fetchStructFieldInfosField f).1.length)
    (fun t v a i => a = true → ifaceFreeV v = true →
      ∀ (name : String) (tags : List (String × String)),
        (fetchStructFieldValueV2sElem t v a i).1.length
          = (fetchStructFieldInfosElem name tags t v).1.length)
    ?_ ?_ ?_ ?_ ?_ ?_ ?_ ?_ ?_ ?_ ?_ ?_ ?_
  · intro fs a i _ _ name tags
    rw [v2sElem_struktTime, infosElem_struktTime]
    rfl
  · intro t fs a i ht ih ha hf name tags
    rw [Bool.not_eq_true] at ht
    subst ht
    rw [ifaceFree_strukt] at hf
    rw [v2sElem_strukt, infosElem_strukt]
    exact ih ha hf
  · intro t v a i hno ha hf name tags
    cases v with
    | strukt fs => exact ((hno fs) rfl).elim
    | leaf n => rw [v2sElem_leaf, infosElem_leaf]; rfl
    | ptr z tgt => rw [v2sElem_ptr, infosElem_ptr]; rfl
    | iface tgt =>
      rw [ifaceFree_iface] at hf
      exact Bool.noConfusion hf
  · intro name tags anon isTime v a i hx _ _
    rw [v2sField_unexported name tags anon isTime v a i hx,
      infosField_unexported name tags anon isTime v hx]
    rfl
  · intro name tags isTime i hx z ih _ hf
    rw [ifaceFreeField_mk, ifaceFree_ptrNone] at hf
    rw [v2sField_ptrNil_write name tags isTime z i (Bool.of_not_eq_false hx),
      infosField_ptrNil name tags isTime z (Bool.of_not_eq_false hx)]
    exact ih rfl hf name tags
  · intro name tags isTime a i hx z hna ha _
    rw [Bool.not_eq_true] at hna
    subst hna
    exact Bool.noConfusion ha
  · intro name tags isTime a i hx _ hf
    rw [ifaceFreeField_mk, ifaceFree_iface] at hf
    exact Bool.noConfusion hf
  · intro name tags isTime a i hx z w ih ha hf
    rw [ifaceFreeField_mk, ifaceFree_ptrSome, Bool.and_eq_true] at hf
    rw [v2sField_ptrSome name tags isTime z w a i (Bool.of_not_eq_false hx),
      infosField_ptrSome name tags isTime z w (Bool.of_not_eq_false hx)]
    exact ih ha hf.2 name tags
  · intro name tags isTime a i hx w ih _ hf
    rw [ifaceFreeField_mk, ifaceFree_iface] at hf
    exact Bool.noConfusion hf
  · intro name tags isTime a i hx v0 hno1 hno2 hno3 hno4 ih ha hf
    rw [ifaceFreeField_mk] at hf
    cases v0 with
    | leaf n =>
      rw [v2sField_anonLeaf name tags isTime n a i (Bool.of_not_eq_false hx),
        infosField_anonLeaf name tags isTime n (Bool.of_not_eq_false hx),
        infosElem_leaf]
      rfl
    | strukt gs =>
      rw [v2sField_anonStrukt name tags isTime gs a i
          (Bool.of_not_eq_false hx),
        infosField_anonStrukt name tags isTime gs (Bool.of_not_eq_false hx)]
      exact ih ha hf name tags
    | ptr z tgt =>
      cases tgt with
      | none => exact ((hno1 z) rfl).elim
      | some w => exact ((hno3 z w) rfl).elim
    | iface tgt =>
      cases tgt with
      | none => exact (hno2 rfl).elim
      | some w => exact ((hno4 w) rfl).elim
  · intro name tags anon isTime v a i hx hna _ _
    rw [Bool.not_eq_true] at hna
    subst hna
    rw [v2sField_plain name tags isTime v a i (Bool.of_not_eq_false hx),
      infosField_plain name tags isTime v (Bool.of_not_eq_false hx)]
    rfl
  · intro a i _ _
    rfl
  · intro f fs a i r1 ih1 ih2 ha hff
    rw [ifaceFreeFields_cons, Bool.and_eq_true] at hff
    have e1 := ih1 ha hff.1
    have e2 : (fetchStructFieldValueV2s fs a
          (fetchStructFieldValueV2sField f a i).2.1).1.length
        = (fetchStructFieldInfos fs).1.length := ih2 ha hff.2
    rw [v2s_cons, infos_cons]
    simp only [List.length_append]
    omega

/-! Step equations for the typing relation and the type-level schema. -/

theorem hasType_strukt (fs : List GoField) (fts : List GoFieldT) :
    hasType (.strukt fs) (.struktT fts) = hasTypeFields fs fts := rfl

theorem hasType_ptrNone (z : GoValue) (t : GoType) :
    hasType (.ptr z none) (.ptrT t) = hasType z t := by
  rw [show hasType (.ptr z none) (.ptrT t) = (hasType z t && true) from rfl,
    Bool.and_true]

theorem hasType_ptrSome (z w : GoValue) (t : GoType) :
    hasType (.ptr z (some w)) (.ptrT t)
      = (hasType z t && hasType w t) := rfl

theorem hasTypeField_mk (n : String) (tg : List (String × String))
    (a b : Bool) (v : GoValue) (n' : String) (tg' : List (String × String))
    (a' b' : Bool) (t : GoType) :
    hasTypeField (.mk n tg a b v) (.mk n' tg' a' b' t)
      = (decide (n = n') && decide (tg = tg') && decide (a = a')
          && decide (b = b') && hasType v t) := rfl

theorem hasTypeFields_cons (f : GoField) (fs : List GoField)
    (ft : GoFieldT) (fts : List GoFieldT) :
    hasTypeFields (f :: fs) (ft :: fts)
      = (hasTypeField f ft && hasTypeFields fs fts) := rfl

theorem noIfaceT_ptrT (t : GoType) :
    noIfaceT (.ptrT t) = noIfaceT t := rfl

theorem noIfaceT_struktT (fts : List GoFieldT) :
    noIfaceT (.struktT fts) = noIfaceTFields fts := rfl

theorem noIfaceT_ifaceT : noIfaceT .ifaceT = false := rfl

theorem noIfaceTField_mk (n : String) (tg : List (String × String))
    (a b : Bool) (t : GoType) :
    noIfaceTField (.mk n tg a b t) = noIfaceT t := rfl

theorem noIfaceTFields_cons (ft : GoFieldT) (fts : List GoFieldT) :
    noIfaceTFields (ft :: fts)
      = (noIfaceTField ft && noIfaceTFields fts) := rfl

theorem schemaFields_nil : schemaOfTypeFields [] = [] := rfl

theorem schemaFields_cons (ft : GoFieldT) (fts : List GoFieldT) :
    schemaOfTypeFields (ft :: fts)
      = schemaOfTypeField ft ++ schemaOfTypeFields fts := rfl

theorem schemaField_unexported (n : String) (tg : List (String × String))
    (a b : Bool) (t : GoType) (hx : IsFieldExportable n = false) :
    schemaOfTypeField (.mk n tg a b t) = [] := by
  unfold schemaOfTypeField
  rw [if_pos hx]

theorem schemaField_plain (n : String) (tg : List (String × String))
    (b : Bool) (t : GoType) (hx : IsFieldExportable n = true) :
    schemaOfTypeField (.mk n tg false b t)
      = [ParseStructFieldJsonInfo n tg] := by
  unfold schemaOfTypeField
  rw [if_neg (by rw [hx]; simp)]
  rfl

theorem schemaField_anonPtr (n : String) (tg : List (String × String))
    (b : Bool) (t : GoType) (hx : IsFieldExportable n = true) :
    schemaOfTypeField (.mk n tg true b (.ptrT t))
      = schemaOfTypeElem n tg b t := by
  unfold schemaOfTypeField
  rw [if_neg (by rw [hx]; simp)]
  rfl

theorem schemaField_anonLeafT (n : String) (tg : List (String × String))
    (b : Bool) (hx : IsFieldExportable n = true) :
    schemaOfTypeField (.mk n tg true b .leafT)
      = schemaOfTypeElem n tg b .leafT := by
  unfold schemaOfTypeField
  rw [if_neg (by rw [hx]; simp)]
  rfl

theorem schemaField_anonStruktT (n : String) (tg : List (String × String))
    (b : Bool) (fts : List GoFieldT) (hx : IsFieldExportable n = true) :
    schemaOfTypeField (.mk n tg true b (.struktT fts))
      = schemaOfTypeElem n tg b (.struktT fts) := by
  unfold schemaOfTypeField
  rw [if_neg (by rw [hx]; simp)]
  rfl

theorem schemaElem_leafT (n : String) (tg : List (String × String))
    (b : Bool) : schemaOfTypeElem n tg b .leafT
      = [ParseStructFieldJsonInfo n tg] := rfl

theorem schemaElem_ptrT (n : String) (tg : List (String × String))
    (b : Bool) (t : GoType) : schemaOfTypeElem n tg b (.ptrT t)
      = [ParseStructFieldJsonInfo n tg] := rfl

theorem schemaElem_struktTime (n : String) (tg : List (String × String))
    (fts : List GoFieldT) : schemaOfTypeElem n tg true (.struktT fts)
      = [ParseStructFieldJsonInfo n tg] := rfl

theorem schemaElem_strukt (n : String) (tg : List (String × String))
    (fts : List GoFieldT) : schemaOfTypeElem n tg false (.struktT fts)
      = schemaOfTypeFields fts := rfl

theorem bridgeSchema :
    ∀ (fs : List GoField) (fts : List GoFieldT),
      hasTypeFields fs fts = true → noIfaceTFields fts = true →
      (fetchStructFieldInfos fs).1 = schemaOfTypeFields fts := by
  refine fetchStructFieldInfos.induct
    (fun fs => ∀ fts, hasTypeFields fs fts = true →
      noIfaceTFields fts = true →
      (fetchStructFieldInfos fs).1 = schemaOfTypeFields fts)
    (fun f => ∀ ft, hasTypeField f ft = true → noIfaceTField ft = true →
      (fetchStructFieldInfosField f).1 = schemaOfTypeField ft)
    (fun name tags isTime v => ∀ t, hasType v t = true →
      noIfaceT t = true →
      (fetchStructFieldInfosElem name tags isTime v).1
        = schemaOfTypeElem name tags isTime t)
    ?_ ?_ ?_ ?_ ?_ ?_ ?_ ?_ ?_ ?_ ?_ ?_
  · intro name tags fs t ht hn
    cases t with
    | ifaceT => rw [noIfaceT_ifaceT] at hn; exact Bool.noConfusion hn
    | leafT => exact Bool.noConfusion ht
    | struktT fts => exact Bool.noConfusion ht
    | ptrT t2 => exact Bool.noConfusion ht
  · intro name tags isTime fs hTime ih t ht hn
    cases t with
    | ifaceT => rw [noIfaceT_ifaceT] at hn; exact Bool.noConfusion hn
    | leafT => exact Bool.noConfusion ht
    | struktT fts => exact Bool.noConfusion ht
    | ptrT t2 => exact Bool.noConfusion ht
  · intro name tags fs t ht hn
    cases t with
    | struktT fts => rw [infosElem_struktTime, schemaElem_struktTime]
    | leafT => exact Bool.noConfusion ht
    | ptrT t2 => exact Bool.noConfusion ht
    | ifaceT => exact Bool.noConfusion ht
  · intro name tags isTime fs hTime ih t ht hn
    rw [Bool.not_eq_true] at hTime
    subst hTime
    cases t with
    | struktT fts =>
      rw [hasType_strukt] at ht
      rw [noIfaceT_struktT] at hn
      rw [infosElem_strukt, schemaElem_strukt]
      exact ih fts ht hn
    | leafT => exact Bool.noConfusion ht
    | ptrT t2 => exact Bool.noConfusion ht
    | ifaceT => exact Bool.noConfusion ht
  · intro name tags isTime v hno1 hno2 t ht hn
    cases v with
    | strukt fs => exact ((hno2 fs) rfl).elim
    | leaf n =>
      cases t with
      | leafT => rw [infosElem_leaf, schemaElem_leafT]
      | struktT fts => exact Bool.noConfusion ht
      | ptrT t2 => exact Bool.noConfusion ht
      | ifaceT => exact Bool.noConfusion ht
    | ptr z tgt =>
      cases t with
      | ptrT t2 => rw [infosElem_ptr, schemaElem_ptrT]
      | struktT fts => exact Bool.noConfusion ht
      | leafT => exact Bool.noConfusion ht
      | ifaceT => exact Bool.noConfusion ht
    | iface tgt =>
      cases t with
      | ifaceT => rw [noIfaceT_ifaceT] at hn; exact Bool.noConfusion hn
      | struktT fts => exact Bool.noConfusion ht
      | leafT => exact Bool.noConfusion ht
      | ptrT t2 => exact Bool.noConfusion ht
  · intro name tags anon isTime v hx ft hft hnf
    cases ft with
    | mk n' tg' a' b' t =>
      rw [hasTypeField_mk] at hft
      simp only [Bool.and_eq_true, decide_eq_true_eq] at hft
      obtain ⟨⟨⟨⟨hn, htg⟩, hano⟩, hb⟩, hv⟩ := hft
      subst hn
      subst htg
      subst hano
      subst hb
      rw [infosField_unexported name tags anon isTime v hx,
        schemaField_unexported name tags anon isTime t hx]
  · intro name tags isTime hx z ih ft hft hnf
    cases ft with
    | mk n' tg' a' b' t =>
      rw [hasTypeField_mk] at hft
      simp only [Bool.and_eq_true, decide_eq_true_eq] at hft
      obtain ⟨⟨⟨⟨hn, htg⟩, hano⟩, hb⟩, hv⟩ := hft
      subst hn
      subst htg
      subst hano
      subst hb
      rw [noIfaceTField_mk] at hnf
      cases t with
      | ptrT t2 =>
        rw [hasType_ptrNone] at hv
        rw [noIfaceT_ptrT] at hnf
        rw [infosField_ptrNil name tags isTime z (Bool.of_not_eq_false hx),
          schemaField_anonPtr name tags isTime t2 (Bool.of_not_eq_false hx)]
        exact ih t2 hv hnf
      | leafT => exact Bool.noConfusion hv
      | struktT fts => exact Bool.noConfusion hv
      | ifaceT => exact Bool.noConfusion hv
  · intro name tags isTime hx z w ih ft hft hnf
    cases ft with
    | mk n' tg' a' b' t =>
      rw [hasTypeField_mk] at hft
      simp only [Bool.and_eq_true, decide_eq_true_eq] at hft
      obtain ⟨⟨⟨⟨hn, htg⟩, hano⟩, hb⟩, hv⟩ := hft
      subst hn
      subst htg
      subst hano
      subst hb
      rw [noIfaceTField_mk] at hnf
      cases t with
      | ptrT t2 =>
        rw [hasType_ptrSome, Bool.and_eq_true] at hv
        rw [noIfaceT_ptrT] at hnf
        rw [infosField_ptrSome name tags isTime z w (Bool.of_not_eq_false hx),
          schemaField_anonPtr name tags isTime t2 (Bool.of_not_eq_false hx)]
        exact ih t2 hv.2 hnf
      | leafT => exact Bool.noConfusion hv
      | struktT fts => exact Bool.noConfusion hv
      | ifaceT => exact Bool.noConfusion hv
  · intro name tags isTime hx v0 hno1 hno2 ih ft hft hnf
    cases ft with
    | mk n' tg' a' b' t =>
      rw [hasTypeField_mk] at hft
      simp only [Bool.and_eq_true, decide_eq_true_eq] at hft
      obtain ⟨⟨⟨⟨hn, htg⟩, hano⟩, hb⟩, hv⟩ := hft
      subst hn
      subst htg
      subst hano
      subst hb
      rw [noIfaceTField_mk] at hnf
      cases v0 with
      | ptr z tgt =>
        cases tgt with
        | none => exact ((hno1 z) rfl).elim
        | some w => exact ((hno2 z w) rfl).elim
      | leaf m =>
        cases t with
        | leafT =>
          rw [infosField_anonLeaf name tags isTime m
              (Bool.of_not_eq_false hx),
            schemaField_anonLeafT name tags isTime (Bool.of_not_eq_false hx)]
          exact ih .leafT hv hnf
        | struktT fts => exact Bool.noConfusion hv
        | ptrT t2 => exact Bool.noConfusion hv
        | ifaceT => exact Bool.noConfusion hv
      | strukt gs =>
        cases t with
        | struktT fts =>
          rw [infosField_anonStrukt name tags isTime gs
              (Bool.of_not_eq_false hx),
            schemaField_anonStruktT name tags isTime fts
              (Bool.of_not_eq_false hx)]
          exact ih (.struktT fts) hv hnf
        | leafT => exact Bool.noConfusion hv
        | ptrT t2 => exact Bool.noConfusion hv
        | ifaceT => exact Bool.noConfusion hv
      | iface tgt =>
        cases t with
        | ifaceT => rw [noIfaceT_ifaceT] at hnf; exact Bool.noConfusion hnf
        | leafT => exact Bool.noConfusion hv
        | struktT fts => exact Bool.noConfusion hv
        | ptrT t2 => exact Bool.noConfusion hv
  · intro name tags anon isTime v hx hna ft hft hnf
    rw [Bool.not_eq_true] at hna
    subst hna
    cases ft with
    | mk n' tg' a' b' t =>
      rw [hasTypeField_mk] at hft
      simp only [Bool.and_eq_true, decide_eq_true_eq] at hft
      obtain ⟨⟨⟨⟨hn, htg⟩, hano⟩, hb⟩, hv⟩ := hft
      subst hn
      subst htg
      subst hano
      subst hb
      rw [infosField_plain name tags isTime v (Bool.of_not_eq_false hx),
        schemaField_plain name tags isTime t (Bool.of_not_eq_false hx)]
  · intro fts h _
    cases fts with
    | nil => rfl
    | cons ft fts' => exact Bool.noConfusion h
  · intro f fs ih1 ih2 fts h hn
    cases fts with
    | nil => exact Bool.noConfusion h
    | cons ft fts' =>
      rw [hasTypeFields_cons, Bool.and_eq_true] at h
      rw [noIfaceTFields_cons, Bool.and_eq_true] at hn
      rw [show (fetchStructFieldInfos (f :: fs)).1
          = (fetchStructFieldInfosField f).1 ++ (fetchStructFieldInfos fs).1
          from rfl]
      rw [schemaFields_cons, ih1 ft h.1 hn.1, ih2 fts' h.2 hn.2]

/-- C10: read-mode value walking leaves the instance unchanged, both in
the v1 walker behind `FetchStructFieldValueSet` and in the v2 walker
with `allocatePtr = false`: no field is written, nil composed
pointer/interface fields stay nil. -/
theorem C10_read_mode_frame :
    (∀ (fs : List GoField) (i : Nat),
        (fetchStructFieldValueV2s fs false i).2.2 = fs)
    ∧ (∀ fs : List GoField, (FetchStructFieldValueSet fs).2 = fs) :=
  ⟨fun fs i => readPreservesV2 fs false i rfl,
   fun fs => readPreservesV1 fs false rfl⟩

/-- C5: in read mode an absent (nil) anonymous pointer or interface
field advances the schema-index counter by exactly one and emits no
entry for itself or anything nested inside it; the walk continues with
the remaining fields at the incremented counter and the field itself is
untouched — one reserved slot for the whole composed field, not one per
descendant. -/
theorem C5_absent_composed_single_slot (name : String)
    (tags : List (String × String)) (isTime : Bool) (z : GoValue)
    (rest : List GoField) (i : Nat) (hx : IsFieldExportable name = true) :
    fetchStructFieldValueV2s
        (GoField.mk name tags true isTime (.ptr z none) :: rest) false i
      = ((fetchStructFieldValueV2s rest false (i + 1)).1,
         (fetchStructFieldValueV2s rest false (i + 1)).2.1,
         GoField.mk name tags true isTime (.ptr z none)
           :: (fetchStructFieldValueV2s rest false (i + 1)).2.2)
    ∧ fetchStructFieldValueV2s
        (GoField.mk name tags true isTime (.iface none) :: rest) false i
      = ((fetchStructFieldValueV2s rest false (i + 1)).1,
         (fetchStructFieldValueV2s rest false (i + 1)).2.1,
         GoField.mk name tags true isTime (.iface none)
           :: (fetchStructFieldValueV2s rest false (i + 1)).2.2) := by
  constructor
  · rw [v2s_cons, v2sField_ptrNil_read name tags isTime z i hx]
    rfl
  · rw [v2s_cons, v2sField_ifaceNil name tags isTime false i hx]
    rfl

/-- C5 witness: a nil embedded `*SInner` under read mode reserves one
slot; the sibling `X` lands at schema index 1. -/
theorem C5_absent_composed_witness :
    IsFieldExportable "SInner" = true
    ∧ fetchStructFieldValueV2s outerNilFields false 0
        = ([⟨.leaf 7, 1⟩], 2, outerNilFields) := by
  refine ⟨rfl, ?_⟩
  have h := (C5_absent_composed_single_slot "SInner" [] false innerZeroV
    [GoField.mk "X" [] false false (.leaf 7)] 0 rfl).1
  rw [show outerNilFields = GoField.mk "SInner" [] true false
      (.ptr innerZeroV none) :: [GoField.mk "X" [] false false (.leaf 7)]
      from rfl, h]
  rfl

/-- C9: first-use schema computation on an instance with a nil
anonymous pointer field allocates the pointer as a side effect: the
returned (mutated) instance has the field set to a non-nil pointer, so
the caller-supplied instance is changed although no write semantics
were requested. -/
theorem C9_schema_walk_allocates (name : String)
    (tags : List (String × String)) (isTime : Bool) (z : GoValue)
    (rest : List GoField) (hx : IsFieldExportable name = true) :
    ∃ (w : GoValue) (rest' : List GoField),
      (fetchStructFieldInfos
          (GoField.mk name tags true isTime (.ptr z none) :: rest)).2
        = GoField.mk name tags true isTime (.ptr z (some w)) :: rest'
      ∧ GoField.mk name tags true isTime (.ptr z (some w))
          ≠ GoField.mk name tags true isTime (.ptr z none) := by
  refine ⟨(fetchStructFieldInfosElem name tags isTime z).2,
    (fetchStructFieldInfos rest).2, ?_, by simp⟩
  rw [show (fetchStructFieldInfos (GoField.mk name tags true isTime
        (.ptr z none) :: rest)).2
      = (fetchStructFieldInfosField (GoField.mk name tags true isTime
          (.ptr z none))).2 :: (fetchStructFieldInfos rest).2 from rfl]
  rw [infosField_ptrNil name tags isTime z hx]

/-- C9 witness: schema computation seeded with the nil-pointer `Outer`
instance returns the instance with `*SInner` allocated. -/
theorem C9_schema_walk_allocates_witness :
    ∃ (w : GoValue) (rest' : List GoField),
      (fetchStructFieldInfos outerNilFields).2
        = GoField.mk "SInner" [] true false (.ptr innerZeroV (some w))
            :: rest'
      ∧ GoField.mk "SInner" [] true false (.ptr innerZeroV (some w))
          ≠ GoField.mk "SInner" [] true false (.ptr innerZeroV none) :=
  C9_schema_walk_allocates "SInner" [] false innerZeroV
    [GoField.mk "X" [] false false (.leaf 7)] rfl

/-- C3 (amended): write mode materializes absent anonymous pointer
fields and walks them as if present, so whenever the instance's
composition is interface-free the number of emitted value entries
equals the length of the schema computed from the instance — also
through the `FetchStructFieldValueSetForWriteV2` wrapper with the
cached schema.  A nil anonymous interface field cannot be allocated:
write mode skips it with one reserved slot, so the claim as stated
(covering interface fields too) fails; see the counterexample. -/
theorem C3_write_mode_count (fs : List GoField) (i : Nat)
    (hf : ifaceFreeFields fs = true) :
    (fetchStructFieldValueV2s fs true i).1.length
      = (fetchStructFieldInfos fs).1.length
    ∧ (FetchStructFieldValueSetForWriteV2
          (some ((fetchStructFieldInfos fs).1)) fs).1.Values.length
        = (FetchStructFieldValueSetForWriteV2
            (some ((fetchStructFieldInfos fs).1)) fs).1.Infos.length :=
  ⟨countEqV2 fs true i rfl hf, countEqV2 fs true 0 rfl hf⟩

/-- C3 witness: the nil-pointer `Outer` instance is interface-free and
write mode yields as many entries as the schema has slots. -/
theorem C3_write_mode_count_witness :
    ifaceFreeFields outerNilFields = true
    ∧ (fetchStructFieldValueV2s outerNilFields true 0).1.length = 3
    ∧ (fetchStructFieldInfos outerNilFields).1.length = 3 :=
  ⟨rfl, ((C3_write_mode_count outerNilFields 0 rfl).1).trans (by rfl), rfl⟩

/-- C3 counterexample: with a nil anonymous interface field, write mode
does not allocate: the value count (1) falls short of the schema length
(2), and the instance comes back unchanged (the interface stays nil). -/
theorem C3_iface_not_materialized :
    (fetchStructFieldValueV2s ifaceNilFields true 0).1.length = 1
    ∧ (fetchStructFieldInfos ifaceNilFields).1.length = 2
    ∧ (fetchStructFieldValueV2s ifaceNilFields true 0).2.2
        = ifaceNilFields :=
  ⟨rfl, rfl, rfl⟩

/-- C8 (amended): the flattened schema is instance-independent for
record types free of anonymous interface fields — two instances of such
a type yield identical info lists, whatever the state of their composed
pointers; and in both modes the schema indices emitted by the value
walk form a strictly increasing sequence.  For a type with an anonymous
interface field the schema does depend on the instance; see the
counterexample. -/
theorem C8_schema_invariant_and_mono :
    (∀ (fts : List GoFieldT) (fs1 fs2 : List GoField),
        hasTypeFields fs1 fts = true → hasTypeFields fs2 fts = true →
        noIfaceTFields fts = true →
        (fetchStructFieldInfos fs1).1 = (fetchStructFieldInfos fs2).1)
    ∧ (∀ (fs : List GoField) (a : Bool) (i : Nat),
        ((fetchStructFieldValueV2s fs a i).1.map
            (fun e => e.Index)).Pairwise (· < ·)) := by
  constructor
  · intro fts fs1 fs2 h1 h2 hn
    rw [bridgeSchema fs1 fts h1 hn, bridgeSchema fs2 fts h2 hn]
  · intro fs a i
    rw [List.pairwise_map]
    exact (monoV2 fs a i).2.2

/-- C8 witness: a nil-pointer and a live-pointer instance of `Outer`
produce the same flattened schema. -/
theorem C8_schema_invariant_witness :
    (fetchStructFieldInfos outerNilFields).1
      = (fetchStructFieldInfos outerLiveFields).1 :=
  C8_schema_invariant_and_mono.1 outerFieldTypes outerNilFields
    outerLiveFields rfl rfl rfl

/-- C8 counterexample: two instances of the same record type whose
anonymous interface field differs (absent versus holding a struct)
yield different flattened schemas, refuting instance-independence as
stated. -/
theorem C8_iface_instance_dependent :
    hasTypeFields ifaceNilFields ifaceFieldTypes = true
    ∧ hasTypeFields ifaceLiveFields ifaceFieldTypes = true
    ∧ (fetchStructFieldInfos ifaceNilFields).1
        ≠ (fetchStructFieldInfos ifaceLiveFields).1 :=
  ⟨rfl, rfl, by decide⟩

/-- C1 (amended): v2 value lookup reports found = false exactly when
the name fails to resolve in the schema or the Values list is empty.
When the name resolves to a schema index held by no Values entry, the
reverse scan misses and the source's `no arrival` fallback returns the
clamped schema index itself as a Values position, so GetValue reports
found = true with whatever value sits at that position — not the
not-found the claim asserts; see the counterexample. -/
theorem C1_lookup_found_iff (set : SStructFieldValueSetV2) (name : String) :
    ((set.GetValue name).2 = false)
      ↔ (firstMatchLoop set.Infos name 0 = -1 ∨ set.Values = []) := by
  have hlb : firstMatchLoop set.Infos name 0 = -1
      ∨ 0 ≤ firstMatchLoop set.Infos name 0 := by
    rw [firstMatchLoop_eq_chainResolve]
    exact chainResolve_lb _ _
  have hkey : (SStructFieldValueSetV2.getStructFieldIndex set name < 0)
      ↔ (firstMatchLoop set.Infos name 0 = -1 ∨ set.Values = []) := by
    simp only [SStructFieldValueSetV2.getStructFieldIndex]
    by_cases hneg : firstMatchLoop set.Infos name 0 < 0
    · rw [if_pos hneg]
      constructor
      · intro _
        rcases hlb with h | h
        · exact Or.inl h
        · omega
      · intro _
        exact hneg
    · rw [if_neg hneg]
      have hge : 0 ≤ firstMatchLoop set.Infos name 0 := by
        rcases hlb with h | h
        · omega
        · exact h
      by_cases hemp : set.Values = []
      · have hlen : set.Values.length = 0 := by rw [hemp]; rfl
        rw [if_pos (by rw [hlen]; push_cast; omega)]
        rw [if_pos (by rw [hlen]; push_cast; omega)]
        constructor
        · intro _
          exact Or.inr hemp
        · intro _
          omega
      · have hlen : 1 ≤ set.Values.length := by
          cases hv : set.Values with
          | nil => exact absurd hv hemp
          | cons e es => simp
        have hcl : ¬ ((if (set.Values.length : Int)
              ≤ firstMatchLoop set.Infos name 0 then
              (set.Values.length : Int) - 1
            else firstMatchLoop set.Infos name 0) < 0) := by
          by_cases hle : (set.Values.length : Int)
              ≤ firstMatchLoop set.Infos name 0
          · rw [if_pos hle]
            omega
          · rw [if_neg hle]
            omega
        rw [if_neg hcl]
        constructor
        · intro hres
          exfalso
          rcases hscan : scanDown set.Values _ _ with _ | j
          · rw [hscan] at hres
            exact hcl hres
          · rw [hscan] at hres
            simp at hres
            omega
        · intro hres
          rcases hres with h | h
          · omega
          · exact absurd h hemp
  have hGet : ((set.GetValue name).2 = false)
      ↔ SStructFieldValueSetV2.getStructFieldIndex set name < 0 := by
    simp only [SStructFieldValueSetV2.GetValue]
    by_cases h : SStructFieldValueSetV2.getStructFieldIndex set name < 0
    · rw [if_pos h]
      simpa using h
    · rw [if_neg h]
      simpa using h
  exact hGet.trans hkey

/-- C1 counterexample: in the cached-schema scenario the key `a`
resolves to schema index 0, no Values entry carries index 0 (the only
entry is `X` at index 1), yet GetValue reports found = true and hands
back the value of `X` — the claim says found = false. -/
theorem C1_no_arrival_found_true :
    firstMatchLoop outerNilSetV2.Infos "a" 0 = 0
    ∧ outerNilSetV2.Values.map (fun e => e.Index) = [1]
    ∧ outerNilSetV2.GetValue "a" = (some (.leaf 7), true) :=
  ⟨rfl, rfl, rfl⟩

end Reflectutils
